import Mathlib

/- Formal model of the `rues_scraper.py` module of the webhook_scrap repository.

   The Python code is shallowly embedded: JSON documents become the inductive
   type `Json`, Python `str` becomes `String` (operated on through `List Char`
   helpers that mirror the CPython semantics actually exercised by the code),
   Python truthiness becomes explicit `truthy*` functions, and external HTTP
   traffic (the Socrata open-data index, the RUES detail API and the RUES web
   pages) is supplied as oracle data in an `Env` structure, with the response
   *processing* translated from the source.  Machine integers do not occur:
   all Python ints are unbounded, matching `Int`/`Nat`. -/

namespace Rues

/-- JSON values, as produced by `requests.Response.json()`.  Numbers are
modelled as integers (every numeric field the scraper touches is integral);
objects keep insertion order like Python dicts, and lookups take the first
matching key. -/
inductive Json where
  | null : Json
  | bool : Bool → Json
  | num  : Int → Json
  | str  : String → Json
  | arr  : List Json → Json
  | obj  : List (String × Json) → Json

/-- A Python dict of JSON values (the payload of `Json.obj`). -/
abbrev JDict := List (String × Json)

/-- `d.get(k)` distinguishing "absent" from "present with value None". -/
def dget : JDict → String → Option Json
  | [], _ => none
  | (k, v) :: rest, key => if k = key then some v else dget rest key

/-- `d.get(k)`: Python returns `None` for an absent key, i.e. `Json.null`. -/
def dgetD (d : JDict) (key : String) : Json :=
  (dget d key).getD Json.null

/-- Python truthiness of a JSON value (`bool(x)`). -/
def truthyJson : Json → Bool
  | .null => false
  | .bool b => b
  | .num n => n != 0
  | .str s => s != ""
  | .arr l => !l.isEmpty
  | .obj l => !l.isEmpty

/-- Python `x or y` on JSON values. -/
def pyOrJson (a b : Json) : Json :=
  if truthyJson a then a else b

/-- Python truthiness of an `Optional[str]` (None and "" are falsy). -/
def truthyStr : Option String → Bool
  | some s => s != ""
  | none => false

/-- Python `x or y` on `Optional[str]` values: the first operand if truthy,
otherwise the second operand unchanged. -/
def pyOrStr (a b : Option String) : Option String :=
  if truthyStr a then a else b

/-- The left-associated chain `a or b or c` as it appears in the webhook's
field merging (index row value, then detail-extracted value, then
html-extracted value). -/
def mergeField (a b c : Option String) : Option String :=
  pyOrStr (pyOrStr a b) c

/- ========= string helpers ========= -/

/-- The six ASCII characters Python `str.strip()` removes (the code never
feeds non-ASCII whitespace into `strip`). -/
def isSpacePy (c : Char) : Bool :=
  c = ' ' || c = '\t' || c = '\n' || c = '\r' || c = '\x0b' || c = '\x0c'

/-- `str.strip()` on a character list. -/
def stripL (l : List Char) : List Char :=
  ((l.dropWhile isSpacePy).reverse.dropWhile isSpacePy).reverse

/-- Python `s.strip()`. -/
def pyStrip (s : String) : String :=
  ⟨stripL s.toList⟩

/-- Worker of `collapseWS`: the flag records whether the previous
character was part of a whitespace run already emitted as one space. -/
def collapseGo : Bool → List Char → List Char
  | _, [] => []
  | inRun, c :: rest =>
    if isSpacePy c then
      if inRun then collapseGo true rest else ' ' :: collapseGo true rest
    else c :: collapseGo false rest

/-- `re.sub(r"\s+", " ", s)`: every maximal whitespace run becomes one
space, all other characters are kept. -/
def collapseWS (l : List Char) : List Char := collapseGo false l

/-- Exact-prefix test on character lists. -/
def prefTest : List Char → List Char → Bool
  | [], _ => true
  | _ :: _, [] => false
  | a :: as, b :: bs => a = b && prefTest as bs

/-- Substring test on character lists (`needle in haystack`). -/
def subTest (needle : List Char) : List Char → Bool
  | [] => prefTest needle []
  | l@(_ :: rest) => prefTest needle l || subTest needle rest

/-- Python `sub in s`. -/
def strContainsSub (s sub : String) : Bool :=
  subTest sub.toList s.toList

/-- ASCII `str.lower()` (all key/role constants compared by the code are
ASCII; accented characters pass through unchanged, as none occur in the
compared-against literals). -/
def lowerStr (s : String) : String :=
  ⟨s.toList.map Char.toLower⟩

/-- Decimal digit value of a digit character. -/
def digitVal (c : Char) : Nat := c.toNat - 48

/-- Character for a decimal digit. -/
def digitChar (n : Nat) : Char := Char.ofNat (48 + n)

/-- Fuelled digit rendering (the fuel keeps the recursion structural; any
fuel above the value is enough, see `natReprGo_fuel`). -/
def natReprGo : Nat → Nat → List Char
  | 0, _ => []
  | fuel + 1, n =>
    if n < 10 then [digitChar n]
    else natReprGo fuel (n / 10) ++ [digitChar (n % 10)]

/-- Decimal rendering of a natural number, as Python `str(n)` renders
non-negative ints. -/
def natRepr (n : Nat) : List Char := natReprGo (n + 1) n

/-- Python `str(n)` for an unbounded int. -/
def intRepr (n : Int) : String :=
  if n < 0 then ⟨'-' :: natRepr (-n).toNat⟩ else ⟨natRepr n.toNat⟩

/-- Value of a digit string. -/
def natOfDigits (l : List Char) : Nat :=
  l.foldl (fun acc c => 10 * acc + digitVal c) 0

/-- Python `int(s)` on a string: optional surrounding whitespace, optional
sign, then at least one ASCII digit.  (CPython additionally accepts Unicode
digits and inner underscores; no input the scraper handles contains
either.) -/
def pyIntOfString (s : String) : Option Int :=
  match stripL s.toList with
  | [] => none
  | '-' :: rest =>
    if rest ≠ [] ∧ rest.all Char.isDigit then some (-(natOfDigits rest : Int)) else none
  | '+' :: rest =>
    if rest ≠ [] ∧ rest.all Char.isDigit then some (natOfDigits rest : Int) else none
  | l =>
    if l.all Char.isDigit then some (natOfDigits l : Int) else none

/-- Python `s.isdigit()` restricted to ASCII: non-empty and all digits. -/
def pyIsDigit (l : List Char) : Bool :=
  !l.isEmpty && l.all Char.isDigit

/- ========= NIT helpers (rues_scraper.py lines 74-90) ========= -/

/-- `only_digits`: `re.sub(r"\D", "", s or "")`. -/
def only_digits (s : String) : String :=
  ⟨s.toList.filter Char.isDigit⟩

/-- `nit_base_sin_dv`: keep the digits; drop the last digit when at least 9
remain. -/
def nit_base_sin_dv (s : String) : String :=
  let digits := only_digits s
  if digits.length ≥ 9 then ⟨digits.toList.dropLast⟩ else digits

/-- A Python value as it can arrive in the webhook payload's `vat` field
(`Optional[Any]` through pydantic).  `pyFloat` carries the exact rational
value of a finite float; `pyNonFinite` stands for `nan`, `inf` and `-inf`,
which satisfy `isinstance(vat, (int, float))` but make `int()` raise a
`ValueError`/`OverflowError`; container and other non-numeric non-string
values are collected under `pyOther`, for which none of the `isinstance`
tests in the source succeed. -/
inductive PyVal where
  | pyNone  : PyVal
  | pyBool  : Bool → PyVal
  | pyInt   : Int → PyVal
  | pyFloat : ℚ → PyVal
  | pyNonFinite : PyVal
  | pyStr   : String → PyVal
  | pyOther : PyVal

/-- Python `int()` truncation toward zero on a rational (exact for every
finite float). -/
def ratTrunc (q : ℚ) : Int :=
  if 0 ≤ q then ⌊q⌋ else ⌈q⌉

/-- The `vat`-only part of `extract_nit_from_payload` (lines 84-90):
`None`/`False` give None, ints and finite floats give `str(int(vat))`
(note `True` reaches the `isinstance(vat, (int, float))` branch and gives
"1"), a non-finite float also reaches that branch but `int()` raises an
uncaught `ValueError`/`OverflowError` there, a string stripping to
non-empty gives its stripped value, anything else gives None. -/
def extractVat : PyVal → Except Unit (Option String)
  | .pyNone => .ok none
  | .pyBool false => .ok none
  | .pyBool true => .ok (some "1")
  | .pyInt n => .ok (some (intRepr n))
  | .pyFloat q => .ok (some (intRepr (ratTrunc q)))
  | .pyNonFinite => .error ()
  | .pyStr s => .ok (if pyStrip s ≠ "" then some (pyStrip s) else none)
  | .pyOther => .ok none

/-- `extract_nit_from_payload` (lines 81-90): a `nit` string that is truthy
(`nit and ...`) and strips to non-empty wins and is returned stripped;
otherwise the `vat` value decides via `extractVat` (raising out of the
function on a non-finite float). -/
def extract_nit_from_payload (nit : Option String) (vat : PyVal) :
    Except Unit (Option String) :=
  match nit with
  | some s =>
    if s ≠ "" ∧ pyStrip s ≠ "" then .ok (some (pyStrip s))
    else extractVat vat
  | none => extractVat vat

/- ========= date cascade (`_to_iso_date`, lines 93-120) ========= -/

/-- Value of a two-digit pair. -/
def twoDig (a b : Char) : Nat := 10 * digitVal a + digitVal b

/-- Gregorian leap year. -/
def isLeap (y : Nat) : Bool := (y % 4 = 0 && y % 100 ≠ 0) || y % 400 = 0

/-- Days in a month of the proleptic Gregorian calendar. -/
def daysInMonth (y m : Nat) : Nat :=
  if m = 2 then (if isLeap y then 29 else 28)
  else if m = 4 ∨ m = 6 ∨ m = 9 ∨ m = 11 then 30
  else 31

/-- Civil date (year, month, day) from days since the Unix epoch, for
non-negative day counts — the conversion `datetime.fromtimestamp(..., utc)`
performs (Howard Hinnant's `civil_from_days`, which CPython's gmtime-based
conversion agrees with). -/
def civilFromDays (days : Nat) : Nat × Nat × Nat :=
  let z := days + 719468
  let era := z / 146097
  let doe := z % 146097
  let yoe := (doe - doe / 1460 + doe / 36524 - doe / 146096) / 365
  let doy := doe - (365 * yoe + yoe / 4 - yoe / 100)
  let mp := (5 * doy + 2) / 153
  let d := doy - (153 * mp + 2) / 5 + 1
  let m := if mp < 10 then mp + 3 else mp - 9
  let y := if m ≤ 2 then yoe + era * 400 + 1 else yoe + era * 400
  (y, m, d)

/-- Zero-pad a digit list on the left to width `w` (no truncation, like
Python's `%0wd` minimum-width padding). -/
def padZ (w : Nat) (l : List Char) : List Char :=
  List.replicate (w - l.length) '0' ++ l

/-- `date(y, m, d).isoformat()`: `YYYY-MM-DD`. -/
def isoFormat (y m d : Nat) : String :=
  ⟨padZ 4 (natRepr y) ++ '-' :: (padZ 2 (natRepr m) ++ '-' :: padZ 2 (natRepr d))⟩

/-- UTC offset suffix of an ISO time: empty or `±HH:MM` (sub-minute offsets,
which no registry data carries, are out of the modelled subset). -/
def offOk : List Char → Bool
  | [] => true
  | sgn :: h1 :: h2 :: ':' :: m1 :: m2 :: [] =>
    (sgn = '+' || sgn = '-') && h1.isDigit && h2.isDigit && m1.isDigit && m2.isDigit
      && decide (twoDig h1 h2 ≤ 23) && decide (twoDig m1 m2 ≤ 59)
  | _ => false

/-- Fractional-second digits (1-6) followed by an optional offset. -/
def fracThenOff (l : List Char) : Bool :=
  let ds := l.takeWhile Char.isDigit
  decide (1 ≤ ds.length) && decide (ds.length ≤ 6) && offOk (l.dropWhile Char.isDigit)

/-- What may follow `HH:MM:SS` in an ISO time. -/
def secondsTail : List Char → Bool
  | [] => true
  | '.' :: r => fracThenOff r
  | l => offOk l

/-- ISO time-of-day `HH:MM[:SS[.ffffff]][±HH:MM]` with range checks, as
`datetime.fromisoformat` validates it. -/
def validTime : List Char → Bool
  | h1 :: h2 :: ':' :: m1 :: m2 :: rest =>
    h1.isDigit && h2.isDigit && m1.isDigit && m2.isDigit
      && decide (twoDig h1 h2 ≤ 23) && decide (twoDig m1 m2 ≤ 59)
      && (match rest with
          | [] => true
          | ':' :: s1 :: s2 :: r2 =>
            s1.isDigit && s2.isDigit && decide (twoDig s1 s2 ≤ 59) && secondsTail r2
          | l => offOk l)
  | _ => false

/-- The four-digit year of an ISO date. -/
def isoY (a b c d : Char) : Nat :=
  1000 * digitVal a + 100 * digitVal b + 10 * digitVal c + digitVal d

/-- What may follow the date part: nothing, or one separator character and
a valid time-of-day. -/
def isoTimeOk : List Char → Bool
  | [] => true
  | _sep :: t => validTime t

/-- `datetime.fromisoformat` restricted to the extended format the scraper
can meet: `YYYY-MM-DD`, optionally a single separator character and a
time-of-day, with full calendar validation; returns the literal (y, m, d)
since `.date()` ignores the time and offset without conversion. -/
def parseIsoYmd (s : String) : Option (Nat × Nat × Nat) :=
  match s.toList with
  | y1 :: y2 :: y3 :: y4 :: '-' :: m1 :: m2 :: '-' :: d1 :: d2 :: rest =>
    if ([y1, y2, y3, y4, m1, m2, d1, d2].all Char.isDigit) = true then
      if 1 ≤ isoY y1 y2 y3 y4 ∧ 1 ≤ twoDig m1 m2 ∧ twoDig m1 m2 ≤ 12 ∧ 1 ≤ twoDig d1 d2
          ∧ twoDig d1 d2 ≤ daysInMonth (isoY y1 y2 y3 y4) (twoDig m1 m2) ∧ isoTimeOk rest = true
      then some (isoY y1 y2 y3 y4, twoDig m1 m2, twoDig d1 d2) else none
    else none
  | _ => none

/-- `s.replace("Z", "+00:00")` (the pattern is the single character Z). -/
def replaceZ : List Char → List Char
  | [] => []
  | c :: rest =>
    if c = 'Z' then '+' :: '0' :: '0' :: ':' :: '0' :: '0' :: replaceZ rest
    else c :: replaceZ rest

/-- `re.match(r"^/Date\((\d+)\)/$", s)`: the wrapped millisecond value. -/
def parseDateMs (s : String) : Option Nat :=
  match s.toList with
  | '/' :: 'D' :: 'a' :: 't' :: 'e' :: '(' :: rest =>
    let ds := rest.takeWhile Char.isDigit
    if ds ≠ [] ∧ rest.dropWhile Char.isDigit = [')', '/'] then some (natOfDigits ds)
    else none
  | _ => none

/-- Split a character list on a separator character. -/
def splitOnChar (sep : Char) : List Char → List (List Char)
  | [] => [[]]
  | c :: rest =>
    if c = sep then [] :: splitOnChar sep rest
    else
      match splitOnChar sep rest with
      | h :: t => (c :: h) :: t
      | [] => [[c]]

/-- `datetime.strptime(s, "%d/%m/%Y")`: day and month of one or two digits,
year of exactly four digits, full-string match, real calendar validation
(the `datetime` constructor rejects e.g. day 31 in April and year 0). -/
def parseDmy (l : List Char) : Option (Nat × Nat × Nat) :=
  match splitOnChar '/' l with
  | [dp, mp, yp] =>
    if dp ≠ [] ∧ dp.length ≤ 2 ∧ dp.all Char.isDigit
        ∧ mp ≠ [] ∧ mp.length ≤ 2 ∧ mp.all Char.isDigit
        ∧ yp.length = 4 ∧ yp.all Char.isDigit then
      if 1 ≤ natOfDigits yp ∧ 1 ≤ natOfDigits mp ∧ natOfDigits mp ≤ 12 ∧ 1 ≤ natOfDigits dp
          ∧ natOfDigits dp ≤ daysInMonth (natOfDigits yp) (natOfDigits mp)
      then some (natOfDigits yp, natOfDigits mp, natOfDigits dp) else none
    else none
  | _ => none

/-- `datetime.fromtimestamp(secs, tz=timezone.utc).date()` for a
non-negative integral timestamp; `None` models the `OverflowError` raised
beyond year 9999, which the cascade catches. -/
def epochFromSeconds (secs : Nat) : Option (Nat × Nat × Nat) :=
  if (civilFromDays (secs / 86400)).1 ≤ 9999 then some (civilFromDays (secs / 86400))
  else none

/-- Date formatting of a parsed (y, m, d). -/
def fmtYmd (ymd : Nat × Nat × Nat) : String := isoFormat ymd.1 ymd.2.1 ymd.2.2

/-- "format the date if this step parsed, otherwise fall through": the
return-or-continue shape shared by every step of the cascade. -/
def ymdOr : Option (Nat × Nat × Nat) → Option String → Option String
  | some ymd, _ => some (fmtYmd ymd)
  | none, fb => fb

/-- "use the captured integer if the wrapper matched, otherwise fall
through". -/
def msOr : Option Nat → (Nat → Option String) → Option String → Option String
  | some ms, f, _ => f ms
  | none, _, fb => fb

/-- Step 4 of the cascade: `%d/%m/%Y`, formatted (lines 117-120). -/
def isoDmy (sl : List Char) : Option String :=
  ymdOr (parseDmy sl) none

/-- Steps 3-4 of the cascade: bare-integer epoch (milliseconds when greater
than 10,000,000,000, else seconds), then `%d/%m/%Y` (lines 110-120). -/
def isoRest (sl : List Char) : Option String :=
  if pyIsDigit sl then
    ymdOr (epochFromSeconds
        (if natOfDigits sl > 10000000000 then natOfDigits sl / 1000 else natOfDigits sl))
      (isoDmy sl)
  else isoDmy sl

/-- The `/Date(ms)/` branch once the wrapper matched (lines 103-109): the
timestamp conversion, falling through on failure. -/
def isoDateMsHit (sl : List Char) (ms : Nat) : Option String :=
  ymdOr (epochFromSeconds (ms / 1000)) (isoRest sl)

/-- Steps 2-4 of the cascade (lines 102-120). -/
def isoFromStep2 (sl : List Char) : Option String :=
  msOr (parseDateMs ⟨sl⟩) (isoDateMsHit sl) (isoRest sl)

/-- The cascade after the falsy test and the strip (lines 97-120). -/
def toIsoDateCore (sl : List Char) : Option String :=
  ymdOr (parseIsoYmd ⟨replaceZ sl⟩) (isoFromStep2 sl)

/-- `_to_iso_date` (lines 93-120): falsy input gives None; otherwise the
stripped string is tried against ISO-8601 (after replacing `Z` with
`+00:00`), then the `/Date(ms)/` wrapper, then a bare integer epoch, then
`%d/%m/%Y`; the first success wins and every failure falls through. -/
def toIsoDate (v : String) : Option String :=
  if v = "" then none else toIsoDateCore (stripL v.toList)

/-- `_to_iso_date` applied to an `Optional[str]` (None is falsy). -/
def toIsoDateOpt : Option String → Option String
  | none => none
  | some s => toIsoDate s

/-- Cascade step 1 as an independent parser: ISO-8601 with `Z` replaced. -/
def stepIso (sl : List Char) : Option (Nat × Nat × Nat) :=
  parseIsoYmd ⟨replaceZ sl⟩

/-- Cascade step 2 as an independent parser: `/Date(ms)/`. -/
def stepDateMs (sl : List Char) : Option (Nat × Nat × Nat) :=
  (parseDateMs ⟨sl⟩).bind fun ms => epochFromSeconds (ms / 1000)

/-- Cascade step 3 as an independent parser: bare integer epoch. -/
def stepEpoch (sl : List Char) : Option (Nat × Nat × Nat) :=
  if pyIsDigit sl then
    epochFromSeconds
      (if natOfDigits sl > 10000000000 then natOfDigits sl / 1000 else natOfDigits sl)
  else none

/-- The specification's reading of the cascade after the falsy test and
strip: four independent parsers in fixed order, first success wins. -/
def cascadeSpecCore (sl : List Char) : Option String :=
  (((stepIso sl).orElse fun _ => (stepDateMs sl).orElse fun _ =>
      (stepEpoch sl).orElse fun _ => parseDmy sl)).map fmtYmd

/-- The specification's reading of the cascade: the four formats tried in
the fixed order ISO-8601, `/Date(ms)/` wrapper, bare integer epoch,
day/month/year, first success formatted as a calendar date. -/
def cascadeSpec (v : String) : Option String :=
  if v = "" then none else cascadeSpecCore (stripL v.toList)

/- ========= field extraction engine (lines 122-313) ========= -/

/-- First hit of a partial function along a list (models the pervasive
"loop, return on first success" pattern of the source). -/
def firstHit {α β : Type} (f : α → Option β) : List α → Option β
  | [] => none
  | x :: xs =>
    match f x with
    | some b => some b
    | none => firstHit f xs

/-- The test `_first_nonempty_str` applies to each candidate: a string
value whose strip is non-empty, returned stripped. -/
def jsonNonemptyStr : Json → Option String
  | .str s => if pyStrip s ≠ "" then some (pyStrip s) else none
  | _ => none

/-- `_first_nonempty_str(*vals)` (lines 122-126). -/
def firstNonemptyStr (vals : List Json) : Option String :=
  firstHit jsonNonemptyStr vals

/-- `detalle.get("empresa") if isinstance(detalle.get("empresa"), dict)
else None`. -/
def empresaOf (d : JDict) : Option JDict :=
  match dgetD d "empresa" with
  | .obj l => some l
  | _ => none

/-- Lookup in an optional sub-dict (`empresa.get(k) if empresa else None`). -/
def optGet (emp : Option JDict) (k : String) : Json :=
  match emp with
  | some e => dgetD e k
  | none => Json.null

/-- `extract_name_sigla` (lines 128-140). -/
def extract_name_sigla (d : JDict) : Option String × Option String :=
  let emp := empresaOf d
  let razon := firstNonemptyStr
    [dgetD d "razonSocial", dgetD d "razon_social",
     optGet emp "razonSocial", optGet emp "razon_social"]
  let sigla := firstNonemptyStr [dgetD d "sigla", optGet emp "sigla"]
  (razon, sigla)

/-- The four candidate code keys inside one activity item (line 170-171). -/
def ciiuOfItem (item : JDict) : Option String :=
  firstNonemptyStr
    [dgetD item "codigoCIIU", dgetD item "ciiu", dgetD item "codigo", dgetD item "codigoCiiu"]

/-- The `for lst in posibles_listas` loop (lines 166-180): a non-empty list
whose first element is a dict, or a dict, yields the first non-empty code;
otherwise the loop continues. -/
def ciiuOfLists : List Json → Option String
  | [] => none
  | lst :: rest =>
    match lst with
    | .arr (item0 :: _) =>
      (match item0 with
       | .obj f =>
         (match ciiuOfItem f with
          | some c => some c
          | none => ciiuOfLists rest)
       | _ => ciiuOfLists rest)
    | .obj f =>
      (match ciiuOfItem f with
       | some c => some c
       | none => ciiuOfLists rest)
    | _ => ciiuOfLists rest

/-- Worker of `dedupFirst`, carrying the set of values already kept. -/
def dedupGo : List String → List String → List String
  | _, [] => []
  | seen, x :: xs => if x ∈ seen then dedupGo seen xs else x :: dedupGo (x :: seen) xs

/-- `dict.fromkeys(...)` de-duplication, keeping the first occurrence. -/
def dedupFirst (l : List String) : List String := dedupGo [] l

/-- `sep.join(l)`. -/
def pyJoin (sep : String) : List String → String
  | [] => ""
  | x :: rest => rest.foldl (fun acc y => acc ++ sep ++ y) x

/-- Name candidates of one person entry (line 200). -/
def repNombreOf (p : JDict) : Option String :=
  firstNonemptyStr
    [dgetD p "nombre", dgetD p "nombreCompleto", dgetD p "razonSocial", dgetD p "nombres"]

/-- Role candidates of one person entry (line 201). -/
def repRolWord (p : JDict) : Option String :=
  firstNonemptyStr [dgetD p "rol", dgetD p "cargo", dgetD p "tipo"]

/-- One `bloque` of the representative loop (lines 195-210), threading the
accumulated `nombres` list because the `elif not nombres` test reads it. -/
def repNamesOfBloque (acc : List String) : Json → List String
  | .arr items =>
    items.foldl (fun acc2 it =>
      match it with
      | .obj p =>
        let nombre := repNombreOf p
        let rolHit := match repRolWord p with
          | some r => strContainsSub (lowerStr r) "representante"
          | none => false
        if rolHit then
          match nombre with
          | some n => acc2 ++ [n]
          | none => acc2
        else if acc2.isEmpty then
          match nombre with
          | some n => acc2 ++ [n]
          | none => acc2
        else acc2
      | _ => acc2) acc
  | .obj p =>
    (match repNombreOf p with
     | some n => acc ++ [n]
     | none => acc)
  | _ => acc

/-- The extras record produced by `extract_rues_extras`. -/
structure Extras where
  fecha_matricula : Option String
  ciiu : Option String
  representante_legal : Option String

/-- The registration-date component of `extract_rues_extras` (lines
144-154): the key cascade, the `empresa` fallback, then `_to_iso_date`. -/
def extrasFecha (d : JDict) : Option String :=
  toIsoDateOpt
    (if truthyStr (firstNonemptyStr
        [dgetD d "fechaMatricula", dgetD d "fecha_matricula", dgetD d "fechaMatriculaRegistro",
         dgetD d "fechaInscripcion", dgetD d "fechaConstitucion"]) then
      firstNonemptyStr
        [dgetD d "fechaMatricula", dgetD d "fecha_matricula", dgetD d "fechaMatriculaRegistro",
         dgetD d "fechaInscripcion", dgetD d "fechaConstitucion"]
    else
      match empresaOf d with
      | some e => firstNonemptyStr
          [dgetD e "fechaMatricula", dgetD e "fechaInscripcion", dgetD e "fechaConstitucion"]
      | none => firstNonemptyStr
          [dgetD d "fechaMatricula", dgetD d "fecha_matricula", dgetD d "fechaMatriculaRegistro",
           dgetD d "fechaInscripcion", dgetD d "fechaConstitucion"])

/-- The CIIU component of `extract_rues_extras` (lines 156-180): the three
candidate keys, swapped for the `empresa` ones when all are falsy. -/
def extrasCiiu (d : JDict) : Option String :=
  ciiuOfLists
    (if ([dgetD d "actividadesEconomicas", dgetD d "actividades",
          dgetD d "actividadEconomica"].any truthyJson) then
      [dgetD d "actividadesEconomicas", dgetD d "actividades", dgetD d "actividadEconomica"]
    else
      match empresaOf d with
      | some e =>
        [dgetD e "actividadesEconomicas", dgetD e "actividades", dgetD e "actividadEconomica"]
      | none =>
        [dgetD d "actividadesEconomicas", dgetD d "actividades", dgetD d "actividadEconomica"])

/-- The strip-filter and first-seen de-duplication applied to the
collected names (line 211). -/
def cleanNames (nombres : List String) : List String :=
  dedupFirst (nombres.filterMap fun n => if pyStrip n = "" then none else some (pyStrip n))

/-- Lines 211-213: join up to two cleaned names, None when none remain. -/
def repJoin (nombres : List String) : Option String :=
  match cleanNames nombres with
  | [] => none
  | c :: rest => some (pyJoin ", " ((c :: rest).take 2))

/-- The candidate representative blocks (lines 184-193), swapped for the
`empresa` ones when all are falsy. -/
def repCandidates (d : JDict) : List Json :=
  if ([dgetD d "representantesLegales", dgetD d "representantes", dgetD d "apoderados",
       dgetD d "junta", dgetD d "personas"].all fun j => !truthyJson j) then
    match empresaOf d with
    | some e => [dgetD e "representantesLegales", dgetD e "representantes",
                 dgetD e "apoderados", dgetD e "junta", dgetD e "personas"]
    | none => [dgetD d "representantesLegales", dgetD d "representantes", dgetD d "apoderados",
               dgetD d "junta", dgetD d "personas"]
  else
    [dgetD d "representantesLegales", dgetD d "representantes", dgetD d "apoderados",
     dgetD d "junta", dgetD d "personas"]

/-- The representative component of `extract_rues_extras` (lines 182-213). -/
def extrasRep (d : JDict) : Option String :=
  repJoin ((repCandidates d).foldl repNamesOfBloque [])

/-- `extract_rues_extras` (lines 142-215): registration date through the
key cascade and `_to_iso_date`; first CIIU code from the structured
activity lists; representative names deduplicated, at most two, joined
with ", ". -/
def extract_rues_extras (d : JDict) : Extras :=
  ⟨extrasFecha d, extrasCiiu d, extrasRep d⟩

/- ========= recursive document scans (lines 218-313) ========= -/

mutual

/-- `_iter_kv` (lines 218-230): DFS over a JSON document yielding each
dict entry (key, value) in order; list elements are descended into but not
yielded themselves. -/
def iterKV : Json → List (String × Json)
  | .obj l => iterKVFields l
  | .arr l => iterKVElems l
  | _ => []

/-- `_iter_kv` over the entries of a dict. -/
def iterKVFields : List (String × Json) → List (String × Json)
  | [] => []
  | (k, v) :: rest => (k, v) :: (iterKV v ++ iterKVFields rest)

/-- `_iter_kv` over the elements of a list. -/
def iterKVElems : List Json → List (String × Json)
  | [] => []
  | v :: rest => iterKV v ++ iterKVElems rest

end

/-- A regex word character, ASCII scope (`\b` in `\b(\d{4})\b`). -/
def isWordCharPy (c : Char) : Bool := c.isAlphanum || c = '_'

/-- A `\b(\d{4})\b` match anchored at the current position: four digits
with non-word characters (or the string edge) on both sides.  `prev` is
the character before the current position. -/
def fourHit (prev : Option Char) : List Char → Option String
  | a :: b :: c :: d :: tail =>
    if a.isDigit && b.isDigit && c.isDigit && d.isDigit
        && (match prev with | some p => !isWordCharPy p | none => true)
        && (match tail with | t :: _ => !isWordCharPy t | [] => true)
    then some ⟨[a, b, c, d]⟩ else none
  | _ => none

/-- Leftmost `\b(\d{4})\b` match: try each start position left to right. -/
def scan4 (prev : Option Char) : List Char → Option String
  | [] => none
  | c1 :: rest =>
    match fourHit prev (c1 :: rest) with
    | some s => some s
    | none => scan4 (some c1) rest

/-- `_CIIU_VAL_RE.search(s)`: first free-standing 4-digit run. -/
def findFourDigit (s : String) : Option String := scan4 none s.toList

/-- `_CIIU_KEY_RE.search(k)`: the pattern `(ciiu|actividad|codigo.*ciiu)`
case-insensitively — the third alternative requires a "ciiu" occurrence
and is therefore subsumed by the first, so the test is "contains ciiu or
actividad". -/
def keyCiiu (k : String) : Bool :=
  strContainsSub (lowerStr k) "ciiu" || strContainsSub (lowerStr k) "actividad"

/-- `_REP_KEY_RE.search(k)`. -/
def repKey (k : String) : Bool := strContainsSub (lowerStr k) "represent"

/-- The repeated inner test of the ciiu scans: a string value searched for
a free-standing 4-digit run. -/
def strHit : String × Json → Option String
  | (_, Json.str s) => findFourDigit s
  | _ => none

/-- One list item of the targeted scan (lines 250-261): a dict item is
searched through its nested string values, a string item directly. -/
def ciiuItemHit : Json → Option String
  | Json.obj f => firstHit strHit (iterKVFields f)
  | Json.str s => findFourDigit s
  | _ => none

/-- One entry of the first (key-targeted) loop of
`find_first_ciiu_anywhere` (lines 239-261): under a ciiu/actividad key, a
string value is searched directly, a dict or list value is searched through
its nested string values. -/
def ciiuKeyHit (k : String) (v : Json) : Option String :=
  match v with
  | .str s => if keyCiiu k then findFourDigit s else none
  | .obj f => if keyCiiu k then firstHit strHit (iterKVFields f) else none
  | .arr items => if keyCiiu k then firstHit ciiuItemHit items else none
  | _ => none

/-- Phase 1 of `find_first_ciiu_anywhere`: the targeted key scan. -/
def findCiiuByKeys (d : JDict) : Option String :=
  firstHit (fun kv => ciiuKeyHit kv.1 kv.2) (iterKVFields d)

/-- Phase 2 of `find_first_ciiu_anywhere` (lines 263-267): the first
4-digit run in any string value anywhere in the document. -/
def findCiiuGlobal (d : JDict) : Option String :=
  firstHit strHit (iterKVFields d)

/-- `find_first_ciiu_anywhere` (lines 237-268): the targeted key scan is
tried first, the whole-document scan only afterwards. -/
def find_first_ciiu_anywhere (d : JDict) : Option String :=
  match findCiiuByKeys d with
  | some c => some c
  | none => findCiiuGlobal d

/-- Direct name keys of `_extract_name_from_person` (line 235, 271-274). -/
def extractNameDirect (d : JDict) : Option String :=
  firstHit (fun k =>
    match dgetD d k with
    | .str s => if pyStrip s ≠ "" then some (⟨collapseWS (stripL s.toList)⟩ : String) else none
    | _ => none) ["nombreCompleto", "nombre", "razonSocial", "nombres"]

/-- First character class of `-\s*([A-ZÁÉÍÓÚÑ][A-ZÁÉÍÓÚÑ\s\.]+)$`. -/
def isUpperName (c : Char) : Bool :=
  ('A' ≤ c ∧ c ≤ 'Z') || c = 'Á' || c = 'É' || c = 'Í' || c = 'Ó' || c = 'Ú' || c = 'Ñ'

/-- Continuation class of the same pattern. -/
def nameClassChar (c : Char) : Bool := isUpperName c || isSpacePy c || c = '.'

/-- The `-\s*(...)$` tail: skip spaces after the dash (no shorter skip can
match, since a space is not in the first class), then an upper-case name
character followed by at least one more class character, extending to the
end of the string. -/
def dashTail (rest : List Char) : Option (List Char) :=
  match rest.dropWhile isSpacePy with
  | u :: g => if isUpperName u ∧ g ≠ [] ∧ g.all nameClassChar then some (u :: g) else none
  | [] => none

/-- Leftmost match of `-\s*([A-ZÁÉÍÓÚÑ][A-ZÁÉÍÓÚÑ\s\.]+)$`. -/
def findDashName : List Char → Option (List Char)
  | [] => none
  | c :: rest =>
    if c = '-' then
      match dashTail rest with
      | some g => some g
      | none => findDashName rest
    else findDashName rest

/-- The dash-name fallback test on one nested value (lines 276-280): a
string containing "-" whose stripped form ends in a dash-introduced
upper-case name yields that name, whitespace collapsed and stripped. -/
def dashHit : String × Json → Option String
  | (_, Json.str s) =>
    if strContainsSub s "-" then
      match findDashName (stripL s.toList) with
      | some g => some (⟨stripL (collapseWS g)⟩ : String)
      | none => none
    else none
  | _ => none

/-- `_extract_name_from_person` (lines 270-281): a direct name key wins;
otherwise the first nested string matching the dash-name pattern. -/
def extractNameFromPerson (d : JDict) : Option String :=
  match extractNameDirect d with
  | some n => some n
  | none => firstHit dashHit (iterKVFields d)

/-- Role text of a person for the principal test (lines 296-300): first of
rol/cargo/tipo that is a string with non-empty strip, lower-cased (not
stripped). -/
def repRolLower (p : JDict) : Option String :=
  firstHit (fun rk =>
    match dgetD p rk with
    | .str s => if pyStrip s ≠ "" then some (lowerStr s) else none
    | _ => none) ["rol", "cargo", "tipo"]

/-- Contribution of one `_iter_kv` entry to the principal/general candidate
lists of `find_first_representante_anywhere` (lines 286-308). -/
def repContrib (k : String) (v : Json) : List String × List String :=
  if repKey k then
    match v with
    | .arr persons =>
      persons.foldl (fun acc it =>
        match it with
        | Json.obj p =>
          (match extractNameFromPerson p with
           | some name =>
             (match repRolLower p with
              | some rol =>
                if strContainsSub rol "principal" then (acc.1 ++ [name], acc.2)
                else (acc.1, acc.2 ++ [name])
              | none => (acc.1, acc.2 ++ [name]))
           | none => acc)
        | _ => acc) ([], [])
    | .obj p =>
      (match extractNameFromPerson p with
       | some n => ([], [n])
       | none => ([], []))
    | _ => ([], [])
  else ([], [])

/-- The accumulated candidate lists of
`find_first_representante_anywhere` (lines 284-308), in document order. -/
def repFold (d : JDict) : List String × List String :=
  (iterKVFields d).foldl
    (fun acc kv => (acc.1 ++ (repContrib kv.1 kv.2).1, acc.2 ++ (repContrib kv.1 kv.2).2))
    ([], [])

/-- Lines 309-313: first principal candidate, else first general one. -/
def repPick : List String × List String → Option String
  | (h :: _, _) => some h
  | ([], h :: _) => some h
  | ([], []) => none

/-- `find_first_representante_anywhere` (lines 283-313). -/
def find_first_representante_anywhere (d : JDict) : Option String :=
  repPick (repFold d)

/- ========= Socrata index lookup (lines 386-398) ========= -/

/-- A row of the open-data index as the scraper reads it: the `$select`ed
columns are strings in the Socrata JSON. -/
abbrev Row := List (String × String)

/-- `row.get(k)`. -/
def rowGet : Row → String → Option String
  | [], _ => none
  | (k, v) :: rest, key => if k = key then some v else rowGet rest key

/-- The sort key of line 395: `int((x.get("matricula") or "0") or 0)` —
missing or falsy values become "0"; `None` when `int()` would raise. -/
def keyOf (r : Row) : Option Int :=
  pyIntOfString (match rowGet r "matricula" with
    | some s => if s = "" then "0" else s
    | none => "0")

/-- The sort key with failures defaulted (only used when every key
parses). -/
def keyD (r : Row) : Int := (keyOf r).getD 0

/-- Stable descending insertion: an element goes before the first later
element of less-or-equal key, so that among equal keys the original order
survives — the behaviour of Python's stable `list.sort(reverse=True)`. -/
def insertDesc (x : Row) : List Row → List Row
  | [] => [x]
  | y :: ys => if keyD x ≥ keyD y then x :: y :: ys else y :: insertDesc x ys

/-- Stable descending sort by `keyD`. -/
def sortDesc : List Row → List Row
  | [] => []
  | x :: xs => insertDesc x (sortDesc xs)

/-- Row selection of `fetch_socrata` (lines 390-398): empty data gives
None; otherwise the sort runs only if every key computation succeeds
(CPython computes all keys before reordering, so a `ValueError` from
`int()` is caught by the `except ... pass` and leaves the list in its
original order), and the first row is returned. -/
def selectRow (data : List Row) : Option Row :=
  match data with
  | [] => none
  | _ =>
    if data.all (fun r => (keyOf r).isSome) then (sortDesc data).head?
    else data.head?

/-- The claim's selection rule, written from its words: a row is selected
unless a strictly larger parsed key (unparsable/missing read as 0) occurs
later, so the first row attaining the maximum wins. -/
def specSelect : List Row → Option Row
  | [] => none
  | x :: xs =>
    match specSelect xs with
    | none => some x
    | some b => if keyD b > keyD x then some b else some x

/- ========= composite record id (lines 400-404) ========= -/

/-- Python `int(x)` over the values `build_id_rm` can receive. -/
def pyIntCoerce : PyVal → Option Int
  | .pyNone => none
  | .pyBool b => some (if b then 1 else 0)
  | .pyInt n => some n
  | .pyFloat q => some (ratTrunc q)
  | .pyNonFinite => none
  | .pyStr s => pyIntOfString s
  | .pyOther => none

/-- `f"{n:0wd}"`: minimum-width zero padding, the sign (if any) ahead of
the zeros. -/
def pyPad (w : Nat) (n : Int) : String :=
  if n < 0 then ⟨'-' :: padZ (w - 1) (natRepr (-n).toNat)⟩
  else ⟨padZ w (natRepr n.toNat)⟩

/-- `build_id_rm` (lines 400-404): `f"{int(c):02d}{int(m):010d}"`, None
when either `int()` raises. -/
def build_id_rm (codigo_camara matricula : PyVal) : Option String :=
  match pyIntCoerce codigo_camara, pyIntCoerce matricula with
  | some c, some m => some (pyPad 2 c ++ pyPad 10 m)
  | _, _ => none

/- ========= envelope unwrap (lines 406-423) ========= -/

/-- Rule 2 and the fallthrough of `unwrap_rues_registro`: a dict under
`registro` is used, otherwise the document itself. -/
def unwrapRegistroRule (fields : JDict) : JDict :=
  match dget fields "registro" with
  | some (.obj rf) => rf
  | _ => fields

/-- `unwrap_rues_registro` (lines 406-423): non-dicts give `{}`; under
`registros`, a non-empty list with a dict first element gives that element
and a non-empty dict gives itself (an empty dict fails the `and regs` test
and falls through); then the `registro` rule; else the document as-is. -/
def unwrap_rues_registro (js : Json) : JDict :=
  match js with
  | .obj fields =>
    (match dget fields "registros" with
     | some (.arr (first :: _)) =>
       (match first with
        | .obj f1 => f1
        | _ => unwrapRegistroRule fields)
     | some (.obj rfields) =>
       if rfields.isEmpty then unwrapRegistroRule fields else rfields
     | _ => unwrapRegistroRule fields)
  | _ => []

/-- The claim's unwrap rules, literally: under `records`(=`registros`) a
list's first element is used when it is a mapping, and a mapping is used
directly (no non-emptiness condition); then the `record` rule; else the
document as-is. -/
def unwrapSpecClaim (js : Json) : JDict :=
  match js with
  | .obj fields =>
    (match dget fields "registros" with
     | some (.arr (first :: _)) =>
       (match first with
        | .obj f1 => f1
        | _ => unwrapRegistroRule fields)
     | some (.obj rfields) => rfields
     | _ => unwrapRegistroRule fields)
  | _ => []

/-- The claim amended by the counterexample: identical to the claim's
rules except that a mapping under `registros` must be non-empty to be used
directly. -/
def unwrapSpecAmended (js : Json) : JDict :=
  match js with
  | .obj fields =>
    (match dget fields "registros" with
     | some (.arr (first :: _)) =>
       (match first with
        | .obj f1 => f1
        | _ => unwrapRegistroRule fields)
     | some (.obj (rf0 :: rfields)) => rf0 :: rfields
     | _ => unwrapRegistroRule fields)
  | _ => []

/- ========= HTML fallback (lines 444-665), network as oracle ========= -/

/-- The partial field dict returned by the two HTML fetchers. -/
structure HtmlFields where
  razon_social : Option String
  sigla : Option String
  fecha_matricula : Option String
  ciiu : Option String
  representante_legal : Option String

/-- What the scraper reads off a RUES detail page, as oracle data: the
text of the three heading selectors in their fixed order (None = element
absent; the empty string is a present element with empty text), the
label-adjacent `sigla` value, the raw date label value (fed to
`_to_iso_date` by the source), the CIIU found by the scoped search, and
the representative found by `_extract_representante_from_soup`.  The
source guarantees `sigla`, `ciiu` and `representante` are non-empty when
present (their extraction routines test non-emptiness before returning);
this is imposed on oracle data through `DetailWF`. -/
structure DetailPageData where
  headings : List (Option String)
  sigla : Option String
  fechaRaw : Option String
  ciiu : Option String
  representante : Option String

/-- The `for sel in [...]` heading loop (lines 504-508, 604-608): first
element whose text is non-empty. -/
def firstNonemptyHeading (hs : List (Option String)) : Option String :=
  firstHit (fun o =>
    match o with
    | some s => if s ≠ "" then some s else none
    | none => none) hs

/-- Field extraction from a fetched detail page (lines 487-564, 587-665).
`searchTitle` is the heading captured on the search page (None in the
direct-by-web-id flow). -/
def parsedDetailPage (d : DetailPageData) (searchTitle : Option String) : HtmlFields where
  razon_social := pyOrStr searchTitle (firstNonemptyHeading d.headings)
  sigla := d.sigla
  fecha_matricula := toIsoDateOpt d.fechaRaw
  ciiu := d.ciiu
  representante_legal := d.representante

/-- The search flow of `fetch_detail_from_html` as oracle data: whether
the search GET returned 200, the search-page title element's text (None =
element absent), whether a detail link was found, and the detail page when
its GET returned 200. -/
structure SearchPageData where
  status200 : Bool
  title : Option String
  hasDetailLink : Bool
  page : Option DetailPageData

/-- `fetch_detail_from_html` (lines 444-564): `{}` on a failed search GET;
only the search title when no detail link is found or the detail GET
fails; the full parsed page otherwise.  `none` stands for the falsy empty
dict, `some` for the (always truthy, keyed) partial dicts. -/
def fetchDetailFromHtml (pg : SearchPageData) : Option HtmlFields :=
  if !pg.status200 then none
  else if !pg.hasDetailLink then some ⟨pg.title, none, none, none, none⟩
  else
    match pg.page with
    | none => some ⟨pg.title, none, none, none, none⟩
    | some d => some (parsedDetailPage d pg.title)

/-- `str(web_id)` for the values the `or`-chain over id keys can produce.
Containers are rendered by their `repr`; only its failure to parse as an
int matters downstream, which the placeholder shares. -/
def pyStrOfJson : Json → String
  | .null => "None"
  | .bool true => "True"
  | .bool false => "False"
  | .num n => intRepr n
  | .str s => s
  | .arr _ => "[...]"
  | .obj _ => "(dict)"

/-- `fetch_detail_from_web_id` (lines 567-665): `{}` when
`int(str(web_id).strip())` raises or the page GET fails; the parsed page
otherwise (no search title in this flow). -/
def fetchDetailFromWebId (lookup : Int → Option DetailPageData) (webId : Json) :
    Option HtmlFields :=
  match pyIntOfString (pyStrOfJson webId) with
  | none => none
  | some did =>
    match lookup did with
    | none => none
    | some d => some (parsedDetailPage d none)

/- ========= the webhook endpoint (lines 672-769) ========= -/

/-- An exception raised by the Socrata fetch: `raise_for_status` gives
`requests.HTTPError`; connection failures, timeouts and `r.json()` decode
failures raise other `RequestException`s, none of which is an
`HTTPError`. -/
inductive ErrKind where
  | httpError : ErrKind
  | connError : ErrKind
  | timeoutErr : ErrKind
  | jsonDecodeErr : ErrKind
deriving DecidableEq

/-- How a webhook call ends when it does not return a payload:
`badRequest` and `notFound` are the deliberate 400/404 `HTTPException`s;
`raised e` is an exception escaping the endpoint (a 500 to the caller);
`attrError` is the `AttributeError` from `.strip()` on a truthy non-string
`razon_social`/`sigla` detail value; `valueErr` is the uncaught
`ValueError`/`OverflowError` from `str(int(vat))` on a non-finite float. -/
inductive WebErr where
  | badRequest : WebErr
  | notFound : WebErr
  | raised : ErrKind → WebErr
  | attrError : WebErr
  | valueErr : WebErr
deriving DecidableEq

/-- The response model `WebhookOut`. -/
structure Out where
  razon_social : Option String
  sigla : Option String
  fecha_matricula : Option String
  ciiu : Option String
  representante_legal : Option String
deriving DecidableEq

/-- The external world of one request: the Socrata fetch outcome (an
exception or the decoded row list), the unwrapped detail document per
composite record id (`fetch_rues_detalle_api` returns `{}` or a non-empty
dict), the search-page flow for this NIT, and the detail pages by numeric
web id. -/
structure Env where
  socrata : Except ErrKind (List Row)
  detalleFor : String → JDict
  searchPage : SearchPageData
  webIdPage : Int → Option DetailPageData

/-- Lines 690-693: `try: row = fetch_socrata(...) except requests.HTTPError:
row = None` — only `HTTPError` is caught; every other exception keeps
propagating. -/
def socrataStep : Except ErrKind (List Row) → Except ErrKind (Option Row)
  | .error .httpError => .ok none
  | .error e => .error e
  | .ok data => .ok (selectRow data)

/-- Lines 760-769: 404 when every field is falsy, else the response. -/
def finalizeOut (r s f c p : Option String) : Except WebErr Out :=
  if truthyStr r || truthyStr s || truthyStr f || truthyStr c || truthyStr p
  then .ok ⟨r, s, f, c, p⟩
  else .error .notFound

/-- Lines 714 and 718-719: `ciiu = extras.get("ciiu") or ciiu` (with ciiu
still None), then the recursive scan only if still falsy. -/
def webhookCiiuStep (detalle : JDict) : Option String :=
  let c1 := pyOrStr (extract_rues_extras detalle).ciiu none
  if truthyStr c1 then c1 else find_first_ciiu_anywhere detalle

/-- Lines 715 and 720-721, same shape for the representative. -/
def webhookRepStep (detalle : JDict) : Option String :=
  let r1 := pyOrStr (extract_rues_extras detalle).representante_legal none
  if truthyStr r1 then r1 else find_first_representante_anywhere detalle

/-- `(detalle.get(k) or "").strip() or None` (lines 706-707): a falsy or
missing value gives None; a truthy string gives its strip (or None when
that is empty); a truthy non-string raises `AttributeError`. -/
def jStripOrRaise (d : JDict) (k : String) : Except Unit (Option String) :=
  let v := dgetD d k
  if truthyJson v then
    match v with
    | .str s => .ok (if pyStrip s = "" then none else some (pyStrip s))
    | _ => .error ()
  else .ok none

/-- The detail-document branch of the webhook (lines 703-747).  The
`or`-chains short-circuit, so the fallback `.strip()` expressions only run
(and can only raise) when `extract_name_sigla` produced nothing. -/
def detailBranch (env : Env) (row : Option Row) (detalle : JDict) : Except WebErr Out :=
  let ns := extract_name_sigla detalle
  match (if truthyStr ns.1 then Except.ok ns.1 else jStripOrRaise detalle "razon_social") with
  | .error _ => .error .attrError
  | .ok nameD =>
  match (if truthyStr ns.2 then Except.ok ns.2 else jStripOrRaise detalle "sigla") with
  | .error _ => .error .attrError
  | .ok siglaD =>
    let rowRazon := row.bind fun r => rowGet r "razon_social"
    let rowSigla := row.bind fun r => rowGet r "sigla"
    let razon1 := pyOrStr rowRazon nameD
    let sigla1 := pyOrStr rowSigla siglaD
    let fecha1 := (extract_rues_extras detalle).fecha_matricula
    let ciiu2 := webhookCiiuStep detalle
    let rep2 := webhookRepStep detalle
    if truthyStr ciiu2 && truthyStr rep2 then
      finalizeOut razon1 sigla1 fecha1 ciiu2 rep2
    else
      let webId := pyOrJson (pyOrJson (dgetD detalle "id") (dgetD detalle "id_detalle"))
        (dgetD detalle "id_detalle_web")
      match webId with
      | .null =>
        (match fetchDetailFromHtml env.searchPage with
         | some h =>
           finalizeOut (pyOrStr razon1 h.razon_social) (pyOrStr sigla1 h.sigla)
             (pyOrStr fecha1 h.fecha_matricula) (pyOrStr ciiu2 h.ciiu)
             (pyOrStr rep2 h.representante_legal)
         | none => finalizeOut razon1 sigla1 fecha1 ciiu2 rep2)
      | _ =>
        (match fetchDetailFromWebId env.webIdPage webId with
         | some h =>
           finalizeOut (pyOrStr razon1 h.razon_social) (pyOrStr sigla1 h.sigla)
             (pyOrStr fecha1 h.fecha_matricula) (pyOrStr ciiu2 h.ciiu)
             (pyOrStr rep2 h.representante_legal)
         | none => finalizeOut razon1 sigla1 fecha1 ciiu2 rep2)

/-- The no-detail fallback branch (lines 749-758). -/
def fallbackBranch (env : Env) (row : Option Row) : Except WebErr Out :=
  match fetchDetailFromHtml env.searchPage with
  | some h =>
    let rowRazon := row.bind fun r => rowGet r "razon_social"
    let rowSigla := row.bind fun r => rowGet r "sigla"
    finalizeOut (mergeField none rowRazon h.razon_social)
      (mergeField none rowSigla h.sigla)
      (pyOrStr none h.fecha_matricula) (pyOrStr none h.ciiu)
      (pyOrStr none h.representante_legal)
  | none => finalizeOut none none none none none

/-- The `/webhook` endpoint (lines 672-769): NIT validation, Socrata
lookup with only `HTTPError` downgraded to "no row", composite-id
construction, detail fetch, then the detail or fallback branch. -/
def webhookModel (env : Env) (nit : Option String) (vat : PyVal) : Except WebErr Out :=
  match extract_nit_from_payload nit vat with
  | .error _ => .error .valueErr
  | .ok nitv =>
  let nitd := nit_base_sin_dv (nitv.getD "")
  if nitd = "" then .error .badRequest
  else
    match socrataStep env.socrata with
    | .error e => .error (.raised e)
    | .ok row =>
      let detalle : JDict :=
        match row with
        | some r =>
          if !r.isEmpty && truthyStr (rowGet r "codigo_camara")
              && truthyStr (rowGet r "matricula") then
            match build_id_rm (.pyStr ((rowGet r "codigo_camara").getD ""))
                (.pyStr ((rowGet r "matricula").getD "")) with
            | some idrm => env.detalleFor idrm
            | none => []
          else []
        | none => []
      if detalle.isEmpty then fallbackBranch env row
      else detailBranch env row detalle

/- ========= specification predicates ========= -/

/-- "null or a non-empty string": never `some ""`. -/
def NN (o : Option String) : Prop := ∀ s, o = some s → s ≠ ""

/-- A 4-digit string. -/
def isFourDigit (s : String) : Bool := s.length = 4 && s.toList.all Char.isDigit

/-- An ISO-8601 calendar-date string: the formatted form of an in-range
year/month/day. -/
def IsIsoDateString (s : String) : Prop :=
  ∃ y m d : Nat, 1 ≤ y ∧ y ≤ 9999 ∧ 1 ≤ m ∧ m ≤ 12 ∧ 1 ≤ d ∧ d ≤ 31 ∧ s = isoFormat y m d

/-- "null or an ISO calendar date". -/
def IsoOpt (o : Option String) : Prop := ∀ s, o = some s → IsIsoDateString s

/-- "null or a 4-digit string". -/
def FourOpt (o : Option String) : Prop := ∀ s, o = some s → isFourDigit s = true

/-- Well-formedness of detail-page oracle data, holding the guarantees the
source's own extraction code enforces on these values: the label-lookup
`sigla` and the representative are non-empty when present (the source
returns them only after a non-emptiness test), and the CIIU is a 4-digit
run captured by the `\d{4}` searches. -/
def DetailWF (d : DetailPageData) : Prop :=
  NN d.sigla ∧ FourOpt d.ciiu ∧ NN d.representante

/-- Well-formedness of an environment: every reachable detail page is
well-formed. -/
def EnvWF (env : Env) : Prop :=
  (∀ d, env.searchPage.page = some d → DetailWF d) ∧
  (∀ i d, env.webIdPage i = some d → DetailWF d)

/-- The original claim's reading of the `vat` leg, which is total: it
never speaks of an error, so values outside the listed cases (containers,
non-finite floats) are read as yielding null. -/
def specVatClaim : PyVal → Option String
  | .pyNone => none
  | .pyBool b => if b then some "1" else none
  | .pyInt n => some (intRepr n)
  | .pyFloat q => some (intRepr (ratTrunc q))
  | .pyNonFinite => none
  | .pyStr s => if pyStrip s = "" then none else some (pyStrip s)
  | .pyOther => none

/-- The amended claim's reading of the `vat` leg: as the original, except
that a non-finite float raises an uncaught error out of the endpoint. -/
def specVat : PyVal → Except Unit (Option String)
  | .pyNone => .ok none
  | .pyBool b => .ok (if b then some "1" else none)
  | .pyInt n => .ok (some (intRepr n))
  | .pyFloat q => .ok (some (intRepr (ratTrunc q)))
  | .pyNonFinite => .error ()
  | .pyStr s => .ok (if pyStrip s = "" then none else some (pyStrip s))
  | .pyOther => .ok none

/-- The amended claim's tax-id precedence: a `nit` that strips to
non-empty wins (stripped); otherwise `vat` decides, raising on a
non-finite float. -/
def specExtractNit (nit : Option String) (vat : PyVal) :
    Except Unit (Option String) :=
  match nit with
  | some s => if pyStrip s ≠ "" then .ok (some (pyStrip s)) else specVat vat
  | none => specVat vat

/- ========= concrete runs used by counterexamples and witnesses ========= -/

/-- Socrata row with a falsy name and a resolvable chamber/sequence. -/
def rowC2 : Row := [("razon_social", ""), ("codigo_camara", "7"), ("matricula", "123")]

/-- Detail document whose structured activity item carries a non-digit
code. -/
def detC2 : JDict :=
  [("actividadesEconomicas", Json.arr [Json.obj [("codigoCIIU", Json.str "ABC")]])]

/-- Environment for the C2 counterexample: the index row resolves, the
detail document yields `ciiu = "ABC"` and no representative, and the HTML
search page is reachable with a present-but-empty title element and no
detail link. -/
def envC2x : Env where
  socrata := .ok [rowC2]
  detalleFor := fun _ => detC2
  searchPage := ⟨true, some "", false, none⟩
  webIdPage := fun _ => none

/-- The response the C2 counterexample run produces. -/
def outC2 : Out := ⟨some "", none, none, some "ABC", none⟩

/-- Environment for the C2 witness: no index row, HTML search page with a
title and no detail link. -/
def envC2w : Env where
  socrata := .ok []
  detalleFor := fun _ => []
  searchPage := ⟨true, some "ACME SAS", false, none⟩
  webIdPage := fun _ => none

/-- Environment for the C3 counterexample: the Socrata GET times out. -/
def envC3x : Env where
  socrata := .error .timeoutErr
  detalleFor := fun _ => []
  searchPage := ⟨false, none, false, none⟩
  webIdPage := fun _ => none

/-- C6 counterexample rows: "5", unparsable "abc", "7". -/
def dataC6x : List Row :=
  [[("matricula", "5")], [("matricula", "abc")], [("matricula", "7")]]

/-- C6 witness rows: all parse, maximum 7 attained twice. -/
def dataC6w : List Row :=
  [[("matricula", "5"), ("tag", "a")],
   [("matricula", "7"), ("tag", "b")],
   [("matricula", "7"), ("tag", "c")]]

/-- The validated-fields part of the output invariant that survives the
counterexample: `sigla`, `ciiu` and `representante_legal` are null or
non-empty, `fecha_matricula` is null or an ISO calendar date. -/
def OutInv (out : Out) : Prop :=
  NN out.sigla ∧ IsoOpt out.fecha_matricula ∧ NN out.ciiu ∧ NN out.representante_legal

/-- The response the C2 witness run produces. -/
def outC2w : Out := ⟨some "ACME SAS", none, none, none, none⟩

/-- Environment whose Socrata GET yields a non-2xx status
(`raise_for_status` raises `requests.HTTPError`). -/
def envC3h : Env where
  socrata := .error .httpError
  detalleFor := fun _ => []
  searchPage := ⟨false, none, false, none⟩
  webIdPage := fun _ => none

/-- C7 counterexample document: an empty mapping under `registros`. -/
def docC7x : Json := Json.obj [("registros", Json.obj [])]

/-- C9 structured document: `actividadesEconomicas: [{codigoCIIU: "4711"}]`. -/
def docC9a : JDict :=
  [("actividadesEconomicas", Json.arr [Json.obj [("codigoCIIU", Json.str "4711")]])]

/-- C9 unstructured document: `{"foo": "código 9999 bar"}` under a key
matching the `actividad` pattern. -/
def docC9b : JDict :=
  [("actividad", Json.obj [("foo", Json.str "código 9999 bar")])]

/-- The original claim's reading of the tax-id precedence: any non-empty
`nit` string wins and its stripped value is used, `vat` ignored. -/
def specExtractNitClaim (nit : Option String) (vat : PyVal) : Option String :=
  match nit with
  | some s => if s ≠ "" then some (pyStrip s) else specVatClaim vat
  | none => specVatClaim vat

/- ========= helper lemmas ========= -/

theorem truthyStr_some_ne {s : String} (h : truthyStr (some s) = true) : s ≠ "" := by
  simpa [truthyStr] using h

theorem NN_of_truthy {a : Option String} (h : truthyStr a = true) : NN a := by
  intro s hs
  cases a with
  | none => exact nomatch hs
  | some t =>
    cases hs
    exact truthyStr_some_ne h

theorem NN_none : NN none := fun _ h => nomatch h

theorem NN_pyOrStr {a b : Option String} (hb : NN b) : NN (pyOrStr a b) := by
  unfold pyOrStr
  split
  · exact NN_of_truthy (by assumption)
  · exact hb

theorem pyOrStr_eq_or (a b : Option String) : pyOrStr a b = a ∨ pyOrStr a b = b := by
  unfold pyOrStr
  split
  · exact Or.inl rfl
  · exact Or.inr rfl

theorem IsoOpt_none : IsoOpt none := fun _ h => nomatch h

theorem IsoOpt_pyOrStr {a b : Option String} (ha : IsoOpt a) (hb : IsoOpt b) :
    IsoOpt (pyOrStr a b) := by
  rcases pyOrStr_eq_or a b with h | h <;> rw [h] <;> assumption

theorem firstHit_prop {α β : Type} (P : β → Prop) (f : α → Option β)
    (hf : ∀ a b, f a = some b → P b) : ∀ l b, firstHit f l = some b → P b := by
  intro l
  induction l with
  | nil => intro b h; exact nomatch h
  | cons x xs ih =>
    intro b h
    unfold firstHit at h
    cases hx : f x with
    | some v => rw [hx] at h; cases h; exact hf x _ hx
    | none => rw [hx] at h; exact ih b h

theorem digit_bounds {c : Char} (h : c.isDigit = true) : 48 ≤ c.toNat ∧ c.toNat ≤ 57 := by
  unfold Char.isDigit at h
  simp [Char.le_def, UInt32.le_def, BitVec.le_def] at h
  unfold Char.toNat UInt32.toNat
  omega

theorem digitVal_le_nine {c : Char} (h : c.isDigit = true) : digitVal c ≤ 9 := by
  have := digit_bounds h
  unfold digitVal
  omega

theorem natOfDigits_go_lt :
    ∀ (l : List Char) (acc : Nat), l.all Char.isDigit = true →
      l.foldl (fun acc c => 10 * acc + digitVal c) acc < (acc + 1) * 10 ^ l.length := by
  intro l
  induction l with
  | nil => intro acc _; simp
  | cons c rest ih =>
    intro acc h
    simp only [List.all_cons, Bool.and_eq_true] at h
    have hc := digitVal_le_nine h.1
    have hrec := ih (10 * acc + digitVal c) h.2
    simp only [List.foldl_cons, List.length_cons]
    calc List.foldl _ (10 * acc + digitVal c) rest
        < (10 * acc + digitVal c + 1) * 10 ^ rest.length := hrec
      _ ≤ ((acc + 1) * 10) * 10 ^ rest.length := by
          apply Nat.mul_le_mul_right
          omega
      _ = (acc + 1) * 10 ^ (rest.length + 1) := by ring

theorem natOfDigits_lt (l : List Char) (h : l.all Char.isDigit = true) :
    natOfDigits l < 10 ^ l.length := by
  have := natOfDigits_go_lt l 0 h
  unfold natOfDigits
  omega

theorem daysInMonth_le (y m : Nat) : daysInMonth y m ≤ 31 := by
  unfold daysInMonth
  split
  · split <;> omega
  · split <;> omega

theorem civilFromDays_bounds (days : Nat) :
    1 ≤ (civilFromDays days).1 ∧ 1 ≤ (civilFromDays days).2.1 ∧ (civilFromDays days).2.1 ≤ 12
      ∧ 1 ≤ (civilFromDays days).2.2 ∧ (civilFromDays days).2.2 ≤ 31 := by
  unfold civilFromDays
  dsimp only
  split <;> split <;> omega

theorem epochFromSeconds_bounds {secs y m d : Nat}
    (h : epochFromSeconds secs = some (y, m, d)) :
    1 ≤ y ∧ y ≤ 9999 ∧ 1 ≤ m ∧ m ≤ 12 ∧ 1 ≤ d ∧ d ≤ 31 := by
  unfold epochFromSeconds at h
  have hb := civilFromDays_bounds (secs / 86400)
  split at h
  · have heq := Option.some.inj h
    have h1 : (civilFromDays (secs / 86400)).1 = y := by rw [heq]
    have h2 : (civilFromDays (secs / 86400)).2.1 = m := by rw [heq]
    have h3 : (civilFromDays (secs / 86400)).2.2 = d := by rw [heq]
    rename_i hle
    omega
  · exact nomatch h

theorem parseIsoYmd_bounds {s : String} {y m d : Nat}
    (h : parseIsoYmd s = some (y, m, d)) :
    1 ≤ y ∧ y ≤ 9999 ∧ 1 ≤ m ∧ m ≤ 12 ∧ 1 ≤ d ∧ d ≤ 31 := by
  unfold parseIsoYmd at h
  split at h
  · rename_i xpart y1 y2 y3 y4 m1 m2 d1 d2 rest heq
    split at h
    · rename_i hdig
      split at h
      · rename_i hcond
        cases h
        simp only [List.all_cons, List.all_nil, Bool.and_eq_true, and_true] at hdig
        obtain ⟨h1, h2, h3, h4, -⟩ := hdig
        have b1 := digitVal_le_nine h1
        have b2 := digitVal_le_nine h2
        have b3 := digitVal_le_nine h3
        have b4 := digitVal_le_nine h4
        have hd31 := daysInMonth_le (isoY y1 y2 y3 y4) (twoDig m1 m2)
        obtain ⟨c1, c2, c3, c4, c5, -⟩ := hcond
        refine ⟨c1, ?_, c2, c3, c4, by omega⟩
        unfold isoY at *
        omega
      · exact nomatch h
    · exact nomatch h
  · exact nomatch h

theorem parseDmy_bounds {l : List Char} {y m d : Nat}
    (h : parseDmy l = some (y, m, d)) :
    1 ≤ y ∧ y ≤ 9999 ∧ 1 ≤ m ∧ m ≤ 12 ∧ 1 ≤ d ∧ d ≤ 31 := by
  unfold parseDmy at h
  split at h
  · rename_i xpart dp mp yp heq
    split at h
    · rename_i hfmt
      split at h
      · rename_i hcond
        cases h
        obtain ⟨-, -, -, -, -, -, hyl, hyd⟩ := hfmt
        have hy : natOfDigits yp < 10 ^ yp.length := natOfDigits_lt yp hyd
        rw [hyl] at hy
        have hd31 := daysInMonth_le (natOfDigits yp) (natOfDigits mp)
        obtain ⟨c1, c2, c3, c4, c5⟩ := hcond
        exact ⟨c1, by norm_num at hy; omega, c2, c3, c4, by omega⟩
      · exact nomatch h
    · exact nomatch h
  · exact nomatch h

theorem isIso_of_bounds {y m d : Nat}
    (h : 1 ≤ y ∧ y ≤ 9999 ∧ 1 ≤ m ∧ m ≤ 12 ∧ 1 ≤ d ∧ d ≤ 31) :
    IsIsoDateString (isoFormat y m d) :=
  ⟨y, m, d, h.1, h.2.1, h.2.2.1, h.2.2.2.1, h.2.2.2.2.1, h.2.2.2.2.2, rfl⟩

theorem ymdOr_inv {X : Option (Nat × Nat × Nat)} {fb : Option String} {r : String}
    (h : ymdOr X fb = some r) :
    (∃ y m d, X = some (y, m, d) ∧ r = isoFormat y m d) ∨ (X = none ∧ fb = some r) := by
  cases X with
  | some ymd =>
    obtain ⟨y, m, d⟩ := ymd
    exact Or.inl ⟨y, m, d, rfl, (Option.some.inj h).symm⟩
  | none => exact Or.inr ⟨rfl, h⟩

theorem msOr_inv {X : Option Nat} {f : Nat → Option String} {fb : Option String} {r : String}
    (h : msOr X f fb = some r) :
    (∃ ms, X = some ms ∧ f ms = some r) ∨ (X = none ∧ fb = some r) := by
  cases X with
  | some ms => exact Or.inl ⟨ms, rfl, h⟩
  | none => exact Or.inr ⟨rfl, h⟩

theorem isoDmy_iso {sl : List Char} {r : String} (h : isoDmy sl = some r) :
    IsIsoDateString r := by
  unfold isoDmy at h
  rcases ymdOr_inv h with ⟨y, m, d, heq, hr⟩ | ⟨-, hfb⟩
  · rw [hr]
    exact isIso_of_bounds (parseDmy_bounds heq)
  · exact nomatch hfb

theorem isoRest_iso {sl : List Char} {r : String} (h : isoRest sl = some r) :
    IsIsoDateString r := by
  unfold isoRest at h
  split at h
  · rcases ymdOr_inv h with ⟨y, m, d, heq, hr⟩ | ⟨-, hfb⟩
    · rw [hr]
      exact isIso_of_bounds (epochFromSeconds_bounds heq)
    · exact isoDmy_iso hfb
  · exact isoDmy_iso h

theorem isoDateMsHit_iso {sl : List Char} {ms : Nat} {r : String}
    (h : isoDateMsHit sl ms = some r) : IsIsoDateString r := by
  unfold isoDateMsHit at h
  rcases ymdOr_inv h with ⟨y, m, d, heq, hr⟩ | ⟨-, hfb⟩
  · rw [hr]
    exact isIso_of_bounds (epochFromSeconds_bounds heq)
  · exact isoRest_iso hfb

theorem isoFromStep2_iso {sl : List Char} {r : String} (h : isoFromStep2 sl = some r) :
    IsIsoDateString r := by
  unfold isoFromStep2 at h
  rcases msOr_inv h with ⟨ms, -, hf⟩ | ⟨-, hfb⟩
  · exact isoDateMsHit_iso hf
  · exact isoRest_iso hfb

theorem toIsoDateCore_iso {sl : List Char} {r : String} (h : toIsoDateCore sl = some r) :
    IsIsoDateString r := by
  unfold toIsoDateCore at h
  rcases ymdOr_inv h with ⟨y, m, d, heq, hr⟩ | ⟨-, hfb⟩
  · rw [hr]
    exact isIso_of_bounds (parseIsoYmd_bounds heq)
  · exact isoFromStep2_iso hfb

theorem toIsoDate_iso {v r : String} (h : toIsoDate v = some r) : IsIsoDateString r := by
  unfold toIsoDate at h
  split at h
  · exact nomatch h
  · exact toIsoDateCore_iso h

theorem toIsoDateOpt_iso (o : Option String) : IsoOpt (toIsoDateOpt o) := by
  intro s hs
  cases o with
  | none => exact nomatch hs
  | some v => exact toIsoDate_iso hs

theorem isoDmy_eq (sl : List Char) : isoDmy sl = (parseDmy sl).map fmtYmd := by
  unfold isoDmy
  cases parseDmy sl <;> rfl

theorem isoRest_eq (sl : List Char) :
    isoRest sl = ((stepEpoch sl).orElse fun _ => parseDmy sl).map fmtYmd := by
  unfold isoRest stepEpoch
  split
  · cases epochFromSeconds
        (if natOfDigits sl > 10000000000 then natOfDigits sl / 1000 else natOfDigits sl) with
    | none => exact isoDmy_eq sl
    | some ymd => rfl
  · exact isoDmy_eq sl

theorem isoDateMsHit_eq (sl : List Char) (ms : Nat) :
    isoDateMsHit sl ms
      = ((epochFromSeconds (ms / 1000)).orElse fun _ =>
          (stepEpoch sl).orElse fun _ => parseDmy sl).map fmtYmd := by
  unfold isoDateMsHit
  cases epochFromSeconds (ms / 1000) with
  | none => exact isoRest_eq sl
  | some ymd => rfl

theorem msOr_some (ms : Nat) (f : Nat → Option String) (fb : Option String) :
    msOr (some ms) f fb = f ms := rfl

theorem msOr_none (f : Nat → Option String) (fb : Option String) :
    msOr none f fb = fb := rfl

theorem ymdOr_some (ymd : Nat × Nat × Nat) (fb : Option String) :
    ymdOr (some ymd) fb = some (fmtYmd ymd) := rfl

theorem ymdOr_none (fb : Option String) : ymdOr none fb = fb := rfl

theorem isoFromStep2_eq (sl : List Char) :
    isoFromStep2 sl
      = ((stepDateMs sl).orElse fun _ => (stepEpoch sl).orElse fun _ => parseDmy sl).map
          fmtYmd := by
  unfold isoFromStep2 stepDateMs
  cases parseDateMs ⟨sl⟩ with
  | none =>
    rw [msOr_none, Option.none_bind', Option.none_orElse']
    exact isoRest_eq sl
  | some ms =>
    rw [msOr_some, Option.some_bind']
    exact isoDateMsHit_eq sl ms

theorem toIsoDateCore_eq (sl : List Char) : toIsoDateCore sl = cascadeSpecCore sl := by
  unfold toIsoDateCore cascadeSpecCore stepIso
  cases parseIsoYmd ⟨replaceZ sl⟩ with
  | none =>
    rw [ymdOr_none, Option.none_orElse']
    exact isoFromStep2_eq sl
  | some ymd =>
    rw [ymdOr_some, Option.some_orElse', Option.map_some']

theorem strmk_ne_empty {l : List Char} (h : l ≠ []) : (⟨l⟩ : String) ≠ "" := by
  intro he
  exact h ((congrArg String.data he).trans rfl)

theorem pyStrip_ne_iff {s : String} : pyStrip s ≠ "" ↔ stripL s.toList ≠ [] := by
  unfold pyStrip
  constructor
  · intro h he
    exact h (by rw [he])
  · intro h
    exact strmk_ne_empty h

theorem isFourDigit_ne_empty {s : String} (h : isFourDigit s = true) : s ≠ "" := by
  intro he
  subst he
  exact absurd h (by decide)

theorem fourHit_four {prev : Option Char} {l : List Char} {s : String}
    (h : fourHit prev l = some s) : isFourDigit s = true := by
  unfold fourHit at h
  split at h
  · split at h
    · rename_i a b c d tail hcond
      cases h
      simp only [Bool.and_eq_true] at hcond
      obtain ⟨⟨⟨⟨⟨ha, hb⟩, hc⟩, hd⟩, -⟩, -⟩ := hcond
      simp [isFourDigit, String.length, String.toList, ha, hb, hc, hd]
    · exact nomatch h
  · exact nomatch h

theorem scan4_four :
    ∀ (l : List Char) (prev : Option Char) (s : String),
      scan4 prev l = some s → isFourDigit s = true := by
  intro l
  induction l with
  | nil => intro prev s h; exact nomatch h
  | cons c rest ih =>
    intro prev s h
    unfold scan4 at h
    cases hh : fourHit prev (c :: rest) with
    | some t => rw [hh] at h; cases h; exact fourHit_four hh
    | none => rw [hh] at h; exact ih (some c) s h

theorem findFourDigit_four {s : String} {r : String} (h : findFourDigit s = some r) :
    isFourDigit r = true :=
  scan4_four _ _ _ h

theorem strHit_four {kv : String × Json} {b : String} (h : strHit kv = some b) :
    isFourDigit b = true := by
  obtain ⟨k2, v2⟩ := kv
  cases v2 with
  | str s => exact findFourDigit_four h
  | null => exact nomatch h
  | bool b2 => exact nomatch h
  | num n => exact nomatch h
  | arr l2 => exact nomatch h
  | obj f => exact nomatch h

theorem ciiuItemHit_four {it : Json} {b : String} (h : ciiuItemHit it = some b) :
    isFourDigit b = true := by
  cases it with
  | obj f =>
    exact firstHit_prop (fun c => isFourDigit c = true) _
      (fun kv c hc => strHit_four hc) _ _ h
  | str s => exact findFourDigit_four h
  | null => exact nomatch h
  | bool b2 => exact nomatch h
  | num n => exact nomatch h
  | arr l2 => exact nomatch h

theorem ciiuKeyHit_four {k : String} {v : Json} {c : String}
    (h : ciiuKeyHit k v = some c) : isFourDigit c = true := by
  cases v with
  | null => exact nomatch h
  | bool b => exact nomatch h
  | num n => exact nomatch h
  | str s =>
    simp only [ciiuKeyHit] at h
    split at h
    · exact findFourDigit_four h
    · exact nomatch h
  | obj fields =>
    simp only [ciiuKeyHit] at h
    split at h
    · exact firstHit_prop (fun c => isFourDigit c = true) _
        (fun kv c hc => strHit_four hc) _ _ h
    · exact nomatch h
  | arr items =>
    simp only [ciiuKeyHit] at h
    split at h
    · exact firstHit_prop (fun c => isFourDigit c = true) _
        (fun it c hc => ciiuItemHit_four hc) _ _ h
    · exact nomatch h

theorem find_first_ciiu_four {d : JDict} {c : String}
    (h : find_first_ciiu_anywhere d = some c) : isFourDigit c = true := by
  unfold find_first_ciiu_anywhere at h
  cases hk : findCiiuByKeys d with
  | some t =>
    rw [hk] at h
    cases h
    exact firstHit_prop (fun c => isFourDigit c = true) _
      (fun kv b hb => ciiuKeyHit_four hb) _ _ hk
  | none =>
    rw [hk] at h
    exact firstHit_prop (fun c => isFourDigit c = true) _
      (fun kv b hb => strHit_four hb) _ _ h

theorem mem_dropWhile_of_not {p : Char → Bool} {c : Char} :
    ∀ {l : List Char}, c ∈ l → p c = false → c ∈ l.dropWhile p := by
  intro l
  induction l with
  | nil => intro h _; exact absurd h (List.not_mem_nil c)
  | cons x xs ih =>
    intro h hc
    by_cases hx : p x = true
    · rw [List.dropWhile_cons_of_pos hx]
      rcases List.mem_cons.mp h with rfl | hmem
      · rw [hc] at hx; exact nomatch hx
      · exact ih hmem hc
    · rw [List.dropWhile_cons_of_neg (by simpa using hx)]
      exact h

theorem stripL_ne_nil_of_mem {c : Char} {l : List Char} (hm : c ∈ l)
    (hc : isSpacePy c = false) : stripL l ≠ [] := by
  unfold stripL
  intro he
  have h1 : c ∈ l.dropWhile isSpacePy := mem_dropWhile_of_not hm hc
  have h2 : c ∈ (l.dropWhile isSpacePy).reverse := List.mem_reverse.mpr h1
  have h3 : c ∈ (l.dropWhile isSpacePy).reverse.dropWhile isSpacePy :=
    mem_dropWhile_of_not h2 hc
  have h4 : c ∈ ((l.dropWhile isSpacePy).reverse.dropWhile isSpacePy).reverse :=
    List.mem_reverse.mpr h3
  rw [he] at h4
  exact absurd h4 (List.not_mem_nil c)

theorem collapseWS_ne_nil {l : List Char} (h : l ≠ []) : collapseWS l ≠ [] := by
  cases l with
  | nil => exact absurd rfl h
  | cons c rest =>
    unfold collapseWS collapseGo
    split
    · exact List.cons_ne_nil _ _
    · exact List.cons_ne_nil _ _

theorem collapseWS_cons_of_not {u : Char} {g : List Char} (hu : isSpacePy u = false) :
    collapseWS (u :: g) = u :: collapseGo false g := by
  unfold collapseWS
  conv_lhs => unfold collapseGo
  simp [hu]

theorem isUpperName_not_space {c : Char} (h : isUpperName c = true) :
    isSpacePy c = false := by
  by_contra hs
  simp only [Bool.not_eq_false] at hs
  simp only [isSpacePy, Bool.or_eq_true, decide_eq_true_eq] at hs
  rcases hs with ((((rfl | rfl) | rfl) | rfl) | rfl) | rfl <;> exact absurd h (by decide)

theorem dashTail_shape {rest g : List Char} (h : dashTail rest = some g) :
    ∃ u g2, g = u :: g2 ∧ isUpperName u = true := by
  unfold dashTail at h
  split at h
  · rename_i u g2 heq
    split at h
    · rename_i hcond
      cases h
      exact ⟨u, g2, rfl, hcond.1⟩
    · exact nomatch h
  · exact nomatch h

theorem findDashName_shape :
    ∀ {l g : List Char}, findDashName l = some g →
      ∃ u g2, g = u :: g2 ∧ isUpperName u = true := by
  intro l
  induction l with
  | nil => intro g h; exact nomatch h
  | cons c rest ih =>
    intro g h
    unfold findDashName at h
    split at h
    · cases hd : dashTail rest with
      | some g2 => rw [hd] at h; cases h; exact dashTail_shape hd
      | none => rw [hd] at h; exact ih h
    · exact ih h

theorem dashHit_ne {kv : String × Json} {b : String} (h : dashHit kv = some b) :
    b ≠ "" := by
  obtain ⟨k2, v2⟩ := kv
  cases v2 with
  | str s =>
    simp only [dashHit] at h
    split at h
    · split at h
      · rename_i g hg
        cases h
        obtain ⟨u, g2, rfl, hu⟩ := findDashName_shape hg
        have hns := isUpperName_not_space hu
        rw [collapseWS_cons_of_not hns]
        apply strmk_ne_empty
        exact stripL_ne_nil_of_mem (List.mem_cons_self u _) hns
      · exact nomatch h
    · exact nomatch h
  | null => exact nomatch h
  | bool b2 => exact nomatch h
  | num n => exact nomatch h
  | arr l2 => exact nomatch h
  | obj f => exact nomatch h

theorem extractNameDirect_ne {d : JDict} {n : String} (h : extractNameDirect d = some n) :
    n ≠ "" := by
  refine firstHit_prop (fun n => n ≠ "") _ ?_ _ _ h
  intro key b hb
  cases hv : dgetD d key with
  | str s =>
    rw [hv] at hb
    dsimp only at hb
    split at hb
    · rename_i hne
      cases hb
      apply strmk_ne_empty
      apply collapseWS_ne_nil
      exact pyStrip_ne_iff.mp hne
    · exact nomatch hb
  | null => rw [hv] at hb; exact nomatch hb
  | bool b2 => rw [hv] at hb; exact nomatch hb
  | num n2 => rw [hv] at hb; exact nomatch hb
  | arr l2 => rw [hv] at hb; exact nomatch hb
  | obj f2 => rw [hv] at hb; exact nomatch hb

theorem extractNameFromPerson_ne {d : JDict} {n : String}
    (h : extractNameFromPerson d = some n) : n ≠ "" := by
  unfold extractNameFromPerson at h
  cases hd : extractNameDirect d with
  | some m => rw [hd] at h; cases h; exact extractNameDirect_ne hd
  | none =>
    rw [hd] at h
    exact firstHit_prop (fun n => n ≠ "") _ (fun kv b hb => dashHit_ne hb) _ _ h

theorem foldl_inv {α β : Type} (P : β → Prop) (f : β → α → β)
    (hstep : ∀ b a, P b → P (f b a)) : ∀ (l : List α) (b : β), P b → P (l.foldl f b) := by
  intro l
  induction l with
  | nil => intro b hb; exact hb
  | cons x xs ih => intro b hb; exact ih (f b x) (hstep b x hb)

theorem str_len_pos {s : String} (h : s ≠ "") : 0 < s.length := by
  cases s with
  | mk data =>
    cases data with
    | nil => exact absurd rfl h
    | cons c cs => simp [String.length]

theorem repContrib_prop (k : String) (v : Json) :
    (∀ x ∈ (repContrib k v).1, x ≠ "") ∧ (∀ x ∈ (repContrib k v).2, x ≠ "") := by
  unfold repContrib
  split
  · cases v with
    | arr persons =>
      refine foldl_inv
        (fun acc : List String × List String =>
          (∀ x ∈ acc.1, x ≠ "") ∧ (∀ x ∈ acc.2, x ≠ "")) _ ?_ persons ([], [])
        ⟨by simp, by simp⟩
      intro acc it hacc
      cases it with
      | obj p =>
        cases hn : extractNameFromPerson p with
        | none => simpa [hn] using hacc
        | some name =>
          have hne := extractNameFromPerson_ne hn
          cases hr : repRolLower p with
          | some rol =>
            by_cases hp : strContainsSub rol "principal" = true
            · simp only [hn, hr, hp, if_true]
              constructor
              · intro x hx
                rcases List.mem_append.mp hx with hx | hx
                · exact hacc.1 x hx
                · rw [List.mem_singleton.mp hx]; exact hne
              · exact hacc.2
            · simp only [hn, hr, hp, if_false]
              constructor
              · exact hacc.1
              · intro x hx
                rcases List.mem_append.mp hx with hx | hx
                · exact hacc.2 x hx
                · rw [List.mem_singleton.mp hx]; exact hne
          | none =>
            simp only [hn, hr]
            constructor
            · exact hacc.1
            · intro x hx
              rcases List.mem_append.mp hx with hx | hx
              · exact hacc.2 x hx
              · rw [List.mem_singleton.mp hx]; exact hne
      | null => exact hacc
      | bool b => exact hacc
      | num n => exact hacc
      | str s => exact hacc
      | arr l2 => exact hacc
    | obj p =>
      cases hn : extractNameFromPerson p with
      | none => simp [hn]
      | some name =>
        simp only [hn]
        exact ⟨by simp, by
          intro x hx
          rw [List.mem_singleton.mp hx]
          exact extractNameFromPerson_ne hn⟩
    | null => simp
    | bool b => simp
    | num n => simp
    | str s => simp
  · simp

theorem repFold_prop (d : JDict) :
    (∀ x ∈ (repFold d).1, x ≠ "") ∧ (∀ x ∈ (repFold d).2, x ≠ "") := by
  unfold repFold
  refine foldl_inv
    (fun acc : List String × List String =>
      (∀ x ∈ acc.1, x ≠ "") ∧ (∀ x ∈ acc.2, x ≠ "")) _ ?_ (iterKVFields d) ([], [])
    ⟨by simp, by simp⟩
  intro acc kv hacc
  have hc := repContrib_prop kv.1 kv.2
  constructor
  · intro x hx
    rcases List.mem_append.mp hx with hx | hx
    · exact hacc.1 x hx
    · exact hc.1 x hx
  · intro x hx
    rcases List.mem_append.mp hx with hx | hx
    · exact hacc.2 x hx
    · exact hc.2 x hx

theorem repPick_prop {pg : List String × List String} {n : String}
    (h1 : ∀ x ∈ pg.1, x ≠ "") (h2 : ∀ x ∈ pg.2, x ≠ "") (h : repPick pg = some n) :
    n ≠ "" := by
  obtain ⟨l1, l2⟩ := pg
  cases l1 with
  | cons a as =>
    have hn := Option.some.inj (show some a = some n from h)
    rw [← hn]
    exact h1 a (List.mem_cons_self a as)
  | nil =>
    cases l2 with
    | cons b bs =>
      have hn := Option.some.inj (show some b = some n from h)
      rw [← hn]
      exact h2 b (List.mem_cons_self b bs)
    | nil => exact nomatch h

theorem find_first_representante_ne {d : JDict} {n : String}
    (h : find_first_representante_anywhere d = some n) : n ≠ "" := by
  unfold find_first_representante_anywhere at h
  have hp := repFold_prop d
  exact repPick_prop hp.1 hp.2 h

theorem dedupGo_mem :
    ∀ {l seen : List String} {x : String}, x ∈ dedupGo seen l → x ∈ l := by
  intro l
  induction l with
  | nil => intro seen x h; exact absurd h (List.not_mem_nil x)
  | cons a as ih =>
    intro seen x h
    unfold dedupGo at h
    split at h
    · exact List.mem_cons_of_mem a (ih h)
    · rcases List.mem_cons.mp h with rfl | hmem
      · exact List.mem_cons_self _ _
      · exact List.mem_cons_of_mem a (ih hmem)

theorem cleanNames_ne {nombres : List String} : ∀ x ∈ cleanNames nombres, x ≠ "" := by
  intro x hx
  unfold cleanNames dedupFirst at hx
  have hf : x ∈ nombres.filterMap
      (fun n => if pyStrip n = "" then none else some (pyStrip n)) := dedupGo_mem hx
  obtain ⟨n, -, hn⟩ := List.mem_filterMap.mp hf
  split at hn
  · exact nomatch hn
  · rename_i hne
    cases hn
    exact hne

theorem pyJoin_len (rest : List String) :
    ∀ acc : String,
      acc.length ≤ (rest.foldl (fun acc y => acc ++ ", " ++ y) acc).length := by
  induction rest with
  | nil => intro acc; exact Nat.le_refl _
  | cons y ys ih =>
    intro acc
    calc acc.length ≤ (acc ++ ", " ++ y).length := by
          simp [String.length_append]
          omega
      _ ≤ _ := ih (acc ++ ", " ++ y)

theorem pyJoin_ne {l : List String} (hne : l ≠ []) (hall : ∀ x ∈ l, x ≠ "") :
    pyJoin ", " l ≠ "" := by
  cases l with
  | nil => exact absurd rfl hne
  | cons x rest =>
    have hx : 0 < x.length := str_len_pos (hall x (List.mem_cons_self x rest))
    have hlen := pyJoin_len rest x
    intro he
    rw [show pyJoin ", " (x :: rest)
        = rest.foldl (fun acc y => acc ++ ", " ++ y) x from rfl] at he
    rw [he] at hlen
    simp at hlen
    omega

theorem repJoin_NN (nombres : List String) : NN (repJoin nombres) := by
  intro s hs
  unfold repJoin at hs
  cases hc : cleanNames nombres with
  | nil => rw [hc] at hs; exact nomatch hs
  | cons c rest =>
    rw [hc] at hs
    cases hs
    apply pyJoin_ne
    · simp [List.take]
    · intro y hy
      have hsub : y ∈ c :: rest := List.take_subset 2 (c :: rest) hy
      rw [← hc] at hsub
      exact cleanNames_ne y hsub

theorem jsonNonemptyStr_ne {j : Json} {s : String} (h : jsonNonemptyStr j = some s) :
    s ≠ "" := by
  cases j with
  | str t =>
    simp only [jsonNonemptyStr] at h
    split at h
    · rename_i hne
      cases h
      exact hne
    · exact nomatch h
  | null => exact nomatch h
  | bool b => exact nomatch h
  | num n => exact nomatch h
  | arr l => exact nomatch h
  | obj f => exact nomatch h

theorem firstNonemptyStr_NN (l : List Json) : NN (firstNonemptyStr l) := by
  intro s hs
  exact firstHit_prop (fun s => s ≠ "") _ (fun a b hb => jsonNonemptyStr_ne hb) _ _ hs

theorem ciiuOfItem_NN (f : JDict) : NN (ciiuOfItem f) := by
  unfold ciiuOfItem
  exact firstNonemptyStr_NN _

theorem ciiuOfLists_NN : ∀ l : List Json, NN (ciiuOfLists l) := by
  intro l
  induction l with
  | nil => exact NN_none
  | cons lst rest ih =>
    intro s hs
    unfold ciiuOfLists at hs
    cases lst with
    | arr l2 =>
      cases l2 with
      | nil => exact ih s hs
      | cons item0 rest2 =>
        cases item0 with
        | obj f =>
          dsimp only at hs
          cases hci : ciiuOfItem f with
          | some c => rw [hci] at hs; cases hs; exact ciiuOfItem_NN f _ hci
          | none => rw [hci] at hs; exact ih s hs
        | null => exact ih s hs
        | bool b => exact ih s hs
        | num n => exact ih s hs
        | str t => exact ih s hs
        | arr l3 => exact ih s hs
    | obj f =>
      dsimp only at hs
      cases hci : ciiuOfItem f with
      | some c => rw [hci] at hs; cases hs; exact ciiuOfItem_NN f _ hci
      | none => rw [hci] at hs; exact ih s hs
    | null => exact ih s hs
    | bool b => exact ih s hs
    | num n => exact ih s hs
    | str t => exact ih s hs

theorem extrasFecha_iso (d : JDict) : IsoOpt (extrasFecha d) := by
  unfold extrasFecha
  exact toIsoDateOpt_iso _

theorem extrasCiiu_NN (d : JDict) : NN (extrasCiiu d) := by
  unfold extrasCiiu
  exact ciiuOfLists_NN _

theorem extrasRep_NN (d : JDict) : NN (extrasRep d) := by
  unfold extrasRep
  exact repJoin_NN _

theorem webhookCiiuStep_NN (detalle : JDict) : NN (webhookCiiuStep detalle) := by
  unfold webhookCiiuStep
  dsimp only
  split
  · exact NN_of_truthy (by assumption)
  · intro s hs
    exact isFourDigit_ne_empty (find_first_ciiu_four hs)

theorem webhookRepStep_NN (detalle : JDict) : NN (webhookRepStep detalle) := by
  unfold webhookRepStep
  dsimp only
  split
  · exact NN_of_truthy (by assumption)
  · intro s hs
    exact find_first_representante_ne hs

theorem NN_of_FourOpt {o : Option String} (h : FourOpt o) : NN o := by
  intro s hs
  exact isFourDigit_ne_empty (h s hs)

theorem jStripOrRaise_NN {d : JDict} {k : String} {o : Option String}
    (h : jStripOrRaise d k = .ok o) : NN o := by
  unfold jStripOrRaise at h
  dsimp only at h
  split at h
  · split at h
    · rename_i s
      cases h
      intro t ht
      split at ht
      · exact nomatch ht
      · cases ht
        assumption
    · exact nomatch h
  · cases h
    exact NN_none

theorem finalizeOut_inv {r s f c p : Option String} {out : Out}
    (h : finalizeOut r s f c p = .ok out) : out = ⟨r, s, f, c, p⟩ := by
  unfold finalizeOut at h
  split at h
  · cases h
    rfl
  · exact nomatch h

theorem finalize_OutInv {r s f c p : Option String} {out : Out}
    (hs : NN s) (hf : IsoOpt f) (hc : NN c) (hp : NN p)
    (h : finalizeOut r s f c p = .ok out) : OutInv out := by
  rw [finalizeOut_inv h]
  exact ⟨hs, hf, hc, hp⟩

theorem parsedDetailPage_inv {d : DetailPageData} (t : Option String) (hwf : DetailWF d) :
    NN (parsedDetailPage d t).sigla ∧ IsoOpt (parsedDetailPage d t).fecha_matricula
      ∧ NN (parsedDetailPage d t).ciiu ∧ NN (parsedDetailPage d t).representante_legal := by
  obtain ⟨h1, h2, h3⟩ := hwf
  exact ⟨h1, toIsoDateOpt_iso d.fechaRaw, NN_of_FourOpt h2, h3⟩

theorem fetchDetailFromHtml_inv {pg : SearchPageData} {h : HtmlFields}
    (hwf : ∀ d, pg.page = some d → DetailWF d)
    (hh : fetchDetailFromHtml pg = some h) :
    NN h.sigla ∧ IsoOpt h.fecha_matricula ∧ NN h.ciiu ∧ NN h.representante_legal := by
  unfold fetchDetailFromHtml at hh
  split at hh
  · exact nomatch hh
  · split at hh
    · cases hh
      exact ⟨NN_none, IsoOpt_none, NN_none, NN_none⟩
    · split at hh
      · cases hh
        exact ⟨NN_none, IsoOpt_none, NN_none, NN_none⟩
      · rename_i d hd
        cases hh
        exact parsedDetailPage_inv pg.title (hwf d hd)

theorem fetchDetailFromWebId_inv {lookup : Int → Option DetailPageData} {w : Json}
    {h : HtmlFields}
    (hwf : ∀ i d, lookup i = some d → DetailWF d)
    (hh : fetchDetailFromWebId lookup w = some h) :
    NN h.sigla ∧ IsoOpt h.fecha_matricula ∧ NN h.ciiu ∧ NN h.representante_legal := by
  unfold fetchDetailFromWebId at hh
  split at hh
  · exact nomatch hh
  · rename_i did hdid
    split at hh
    · exact nomatch hh
    · rename_i d hd
      cases hh
      exact parsedDetailPage_inv none (hwf did d hd)

theorem detailBranch_OutInv {env : Env} {row : Option Row} {detalle : JDict} {out : Out}
    (hwf : EnvWF env) (h : detailBranch env row detalle = .ok out) : OutInv out := by
  unfold detailBranch at h
  dsimp only at h
  split at h
  · exact nomatch h
  · rename_i nameD hname
    split at h
    · exact nomatch h
    · rename_i siglaD hsigla
      have hSig : NN siglaD := by
        split at hsigla
        · cases hsigla
          exact NN_of_truthy (by assumption)
        · exact jStripOrRaise_NN hsigla
      have hS1 : NN (pyOrStr (row.bind fun r => rowGet r "sigla") siglaD) := NN_pyOrStr hSig
      have hF1 : IsoOpt (extract_rues_extras detalle).fecha_matricula := extrasFecha_iso detalle
      have hC1 : NN (webhookCiiuStep detalle) := webhookCiiuStep_NN detalle
      have hP1 : NN (webhookRepStep detalle) := webhookRepStep_NN detalle
      split at h
      · exact finalize_OutInv hS1 hF1 hC1 hP1 h
      · split at h
        · split at h
          · rename_i hf hhf
            have hx := fetchDetailFromHtml_inv hwf.1 hhf
            exact finalize_OutInv (NN_pyOrStr hx.1) (IsoOpt_pyOrStr hF1 hx.2.1)
              (NN_pyOrStr hx.2.2.1) (NN_pyOrStr hx.2.2.2) h
          · exact finalize_OutInv hS1 hF1 hC1 hP1 h
        · split at h
          · rename_i hf hhf
            have hx := fetchDetailFromWebId_inv hwf.2 hhf
            exact finalize_OutInv (NN_pyOrStr hx.1) (IsoOpt_pyOrStr hF1 hx.2.1)
              (NN_pyOrStr hx.2.2.1) (NN_pyOrStr hx.2.2.2) h
          · exact finalize_OutInv hS1 hF1 hC1 hP1 h

theorem fallbackBranch_OutInv {env : Env} {row : Option Row} {out : Out}
    (hwf : EnvWF env) (h : fallbackBranch env row = .ok out) : OutInv out := by
  unfold fallbackBranch at h
  split at h
  · rename_i hf hhf
    dsimp only at h
    have hx := fetchDetailFromHtml_inv hwf.1 hhf
    exact finalize_OutInv (NN_pyOrStr hx.1) (IsoOpt_pyOrStr IsoOpt_none hx.2.1)
      (NN_pyOrStr hx.2.2.1) (NN_pyOrStr hx.2.2.2) h
  · exact finalize_OutInv NN_none IsoOpt_none NN_none NN_none h

theorem webhookModel_OutInv {env : Env} {nit : Option String} {vat : PyVal} {out : Out}
    (hwf : EnvWF env) (h : webhookModel env nit vat = .ok out) : OutInv out := by
  unfold webhookModel at h
  split at h
  · exact nomatch h
  · rename_i nitv hnitv
    dsimp only at h
    split at h
    · exact nomatch h
    · split at h
      · exact nomatch h
      · rename_i row hrow
        split at h
        · exact fallbackBranch_OutInv hwf h
        · exact detailBranch_OutInv hwf h

theorem toIsoDate_eq_spec (v : String) : toIsoDate v = cascadeSpec v := by
  unfold toIsoDate cascadeSpec
  split
  · rfl
  · exact toIsoDateCore_eq (stripL v.toList)

theorem insertDesc_head (x y : Row) (ys : List Row) :
    (insertDesc x (y :: ys)).head? = if keyD x ≥ keyD y then some x else some y := by
  unfold insertDesc
  split
  · rfl
  · rfl

theorem sortDesc_head : ∀ data : List Row, (sortDesc data).head? = specSelect data := by
  intro data
  induction data with
  | nil => rfl
  | cons x xs ih =>
    show (insertDesc x (sortDesc xs)).head? = specSelect (x :: xs)
    unfold specSelect
    cases hs : sortDesc xs with
    | nil =>
      rw [hs] at ih
      rw [← ih]
      rfl
    | cons y ys =>
      rw [hs] at ih
      rw [← ih, insertDesc_head]
      show _ = if keyD y > keyD x then some y else some x
      rcases lt_or_ge (keyD x) (keyD y) with hlt | hge
      · rw [if_neg (not_le.mpr hlt), if_pos hlt]
      · rw [if_pos hge, if_neg (not_lt.mpr hge)]

theorem selectRow_eq_spec {data : List Row}
    (hall : data.all (fun r => (keyOf r).isSome) = true) :
    selectRow data = specSelect data := by
  cases data with
  | nil => rfl
  | cons x xs =>
    show (if (x :: xs).all (fun r => (keyOf r).isSome) then (sortDesc (x :: xs)).head?
        else (x :: xs).head?) = specSelect (x :: xs)
    rw [if_pos hall]
    exact sortDesc_head (x :: xs)

theorem natReprGo_len : ∀ fuel n w : Nat, n < fuel → 1 ≤ w → n < 10 ^ w →
    (natReprGo fuel n).length ≤ w := by
  intro fuel
  induction fuel with
  | zero =>
    intro n w hf _ _
    exact absurd hf (Nat.not_lt_zero n)
  | succ f ih =>
    intro n w hf hw hpow
    unfold natReprGo
    split
    · simpa using hw
    · rename_i hge
      push_neg at hge
      have hw2 : 2 ≤ w := by
        by_contra hc
        have hw1 : w = 1 := by omega
        subst hw1
        rw [pow_one] at hpow
        omega
      have hdiv : n / 10 < 10 ^ (w - 1) := by
        refine Nat.div_lt_of_lt_mul ?_
        have hw1 : w - 1 + 1 = w := by omega
        have h10 : 10 ^ w = 10 * 10 ^ (w - 1) := by
          conv_lhs => rw [← hw1]
          rw [pow_succ, mul_comm]
        calc n < 10 ^ w := hpow
          _ = 10 * 10 ^ (w - 1) := h10
      have hfd : n / 10 < f := by
        have hlt : n / 10 < n := Nat.div_lt_self (by omega) (by omega)
        omega
      have hrec := ih (n / 10) (w - 1) hfd (by omega) hdiv
      simp only [List.length_append, List.length_cons, List.length_nil]
      omega

theorem natRepr_len {n w : Nat} (hw : 1 ≤ w) (h : n < 10 ^ w) :
    (natRepr n).length ≤ w :=
  natReprGo_len (n + 1) n w (Nat.lt_succ_self n) hw h

theorem padZ_len {w : Nat} {l : List Char} (h : l.length ≤ w) :
    (padZ w l).length = w := by
  unfold padZ
  rw [List.length_append, List.length_replicate]
  omega

theorem pyPad_len (w : Nat) (n : Int) (hw : 1 ≤ w) (h0 : 0 ≤ n)
    (h : n < (10 : Int) ^ w) : (pyPad w n).length = w := by
  unfold pyPad
  rw [if_neg (by omega)]
  have hn : (n.toNat : Int) < (10 : Int) ^ w := by
    rw [Int.toNat_of_nonneg h0]
    exact h
  have hn2 : n.toNat < 10 ^ w := by exact_mod_cast hn
  exact padZ_len (natRepr_len hw hn2)

theorem unwrap_eq_amended (js : Json) :
    unwrap_rues_registro js = unwrapSpecAmended js := by
  cases js with
  | obj fields =>
    show (match dget fields "registros" with
      | some (.arr (first :: _)) =>
        (match first with
         | .obj f1 => f1
         | _ => unwrapRegistroRule fields)
      | some (.obj rfields) =>
        if rfields.isEmpty then unwrapRegistroRule fields else rfields
      | _ => unwrapRegistroRule fields)
      = (match dget fields "registros" with
      | some (.arr (first :: _)) =>
        (match first with
         | .obj f1 => f1
         | _ => unwrapRegistroRule fields)
      | some (.obj (rf0 :: rfields)) => rf0 :: rfields
      | _ => unwrapRegistroRule fields)
    generalize dget fields "registros" = reg
    cases reg with
    | some v =>
      cases v with
      | arr l =>
        cases l with
        | nil => rfl
        | cons first rest => cases first <;> rfl
      | obj rfields => cases rfields <;> rfl
      | null => rfl
      | bool b => rfl
      | num n => rfl
      | str s => rfl
    | none => rfl
  | null => rfl
  | bool b => rfl
  | num n => rfl
  | str s => rfl
  | arr l => rfl

theorem strLen_mk (l : List Char) : (⟨l⟩ : String).length = l.length := rfl

theorem only_digits_all (s : String) : (only_digits s).toList.all Char.isDigit = true := by
  rw [List.all_eq_true]
  intro c hc
  exact (List.mem_filter.mp hc).2

theorem only_digits_of_all {s : String} (h : s.toList.all Char.isDigit = true) :
    only_digits s = s := by
  unfold only_digits
  rw [List.filter_eq_self.mpr (fun c hc => List.all_eq_true.mp h c hc)]
  rfl

theorem nit_base_all (s : String) :
    (nit_base_sin_dv s).toList.all Char.isDigit = true := by
  unfold nit_base_sin_dv
  dsimp only
  split
  · rw [List.all_eq_true]
    intro c hc
    have hc2 : c ∈ (only_digits s).toList := (List.dropLast_sublist _).subset hc
    exact List.all_eq_true.mp (only_digits_all s) c hc2
  · exact only_digits_all s

theorem nit_base_len_le (s : String) (h : (only_digits s).length ≤ 9) :
    (nit_base_sin_dv s).length ≤ 8 := by
  unfold nit_base_sin_dv
  dsimp only
  split
  · rename_i hge
    rw [strLen_mk, List.length_dropLast]
    have hl : (only_digits s).toList.length = (only_digits s).length := rfl
    omega
  · rename_i hlt
    omega

theorem extractVat_eq_spec (v : PyVal) : extractVat v = specVat v := by
  cases v with
  | pyBool b => cases b <;> rfl
  | pyStr s =>
    by_cases hp : pyStrip s = ""
    · simp [extractVat, specVat, hp]
    · simp [extractVat, specVat, hp]
  | pyNone => rfl
  | pyInt n => rfl
  | pyFloat q => rfl
  | pyNonFinite => rfl
  | pyOther => rfl

/- ========= the claims ========= -/

/-- C1: per-field merge precedence — the merged value is the index-derived
value when it is non-null and non-empty (truthy), otherwise the
detail-derived value when truthy, otherwise the html-derived value; in
particular a field already filled by an earlier source is never
overwritten by a later one. -/
theorem C1_merge_precedence (a b c : Option String) :
    mergeField a b c = if truthyStr a then a else if truthyStr b then b else c := by
  cases ha : truthyStr a <;> cases hb : truthyStr b <;>
    simp [mergeField, pyOrStr, ha, hb]

/-- C2 counterexample: a well-formed run returns a response whose
`razon_social` is the empty string (leaked from a present-but-empty html
title merged over a falsy index value) and whose `ciiu` is the non-4-digit
string "ABC" passed through from the structured activity item — the
original output-record invariant fails. -/
theorem C2_output_invariant_cex :
    EnvWF envC2x
      ∧ webhookModel envC2x (some "900123456-7") PyVal.pyNone = .ok outC2
      ∧ outC2.razon_social = some ""
      ∧ outC2.ciiu = some "ABC"
      ∧ isFourDigit "ABC" = false :=
  ⟨⟨(fun _ hd => nomatch hd), (fun _ _ hd => nomatch hd)⟩, rfl, rfl, rfl, rfl⟩

/-- C2 (amended): for every well-formed environment, every response the
webhook returns has `sigla`, `ciiu` and `representante_legal` null or
non-empty and `fecha_matricula` null or an ISO calendar date;
`razon_social` can be the empty string and `ciiu` need not be 4 digits. -/
theorem C2_output_invariant_amended (env : Env) (nit : Option String) (vat : PyVal)
    (out : Out) (hwf : EnvWF env) (h : webhookModel env nit vat = .ok out) :
    OutInv out :=
  webhookModel_OutInv hwf h

/-- C2 witness: the amended invariant at a concrete run. -/
theorem C2_output_invariant_witness : OutInv outC2w :=
  C2_output_invariant_amended envC2w (some "123456789") PyVal.pyNone outC2w
    ⟨(fun _ hd => nomatch hd), (fun _ _ hd => nomatch hd)⟩ rfl

/-- C3 counterexample: a Socrata timeout is not caught — it escapes the
endpoint instead of being treated as "no row". -/
theorem C3_index_errors_cex :
    webhookModel envC3x (some "123456789") PyVal.pyNone
      = .error (.raised .timeoutErr) := rfl

/-- C3 (amended): only `requests.HTTPError` is downgraded to "no row" (the
run proceeds exactly as the no-row fallback); every other transport error
raised by the index lookup propagates to the caller. -/
theorem C3_index_errors_amended (env : Env) (nit : Option String) (vat : PyVal)
    (nv : Option String) (e : ErrKind)
    (hx : extract_nit_from_payload nit vat = .ok nv)
    (hs : env.socrata = .error e)
    (hn : nit_base_sin_dv (nv.getD "") ≠ "") :
    (e = .httpError → webhookModel env nit vat = fallbackBranch env none)
      ∧ (e ≠ .httpError → webhookModel env nit vat = .error (.raised e)) := by
  constructor
  · intro he
    subst he
    unfold webhookModel
    rw [hx]
    dsimp only
    rw [if_neg hn, hs]
    rfl
  · intro hne
    unfold webhookModel
    rw [hx]
    dsimp only
    rw [if_neg hn, hs]
    cases e with
    | httpError => exact absurd rfl hne
    | connError => rfl
    | timeoutErr => rfl
    | jsonDecodeErr => rfl

/-- C3 witness: the HTTPError leg at a concrete environment. -/
theorem C3_index_errors_witness :
    webhookModel envC3h (some "123456789") PyVal.pyNone = fallbackBranch envC3h none :=
  (C3_index_errors_amended envC3h (some "123456789") PyVal.pyNone
    (some "123456789") .httpError rfl rfl (by decide)).1 rfl

/-- C4: the date-normalization cascade sends the four literal inputs to
"2023-05-10", sends "not-a-date" to null, and for every input equals the
four independent parsers tried in the fixed order ISO-8601, `/Date(ms)/`,
bare integer epoch, day/month/year — total and deterministic by
construction. -/
theorem C4_date_cascade :
    toIsoDate "2023-05-10T00:00:00Z" = some "2023-05-10"
      ∧ toIsoDate "/Date(1683676800000)/" = some "2023-05-10"
      ∧ toIsoDate "1683676800" = some "2023-05-10"
      ∧ toIsoDate "10/05/2023" = some "2023-05-10"
      ∧ toIsoDate "not-a-date" = none
      ∧ ∀ v : String, toIsoDate v = cascadeSpec v :=
  ⟨rfl, rfl, rfl, rfl, rfl, toIsoDate_eq_spec⟩

/-- C5 counterexample: on a 10-digit input the normalization is not
idempotent — the first pass keeps 9 digits, so the second pass drops
another digit. -/
theorem C5_idempotence_cex :
    nit_base_sin_dv (nit_base_sin_dv "1234567890") ≠ nit_base_sin_dv "1234567890" := by
  decide

/-- C5 (amended): normalization is idempotent on every input with at most
9 digits (then the first pass's output has at most 8 digits and the
second pass keeps it unchanged); with 10 or more digits a second pass
drops a further digit. -/
theorem C5_idempotence_amended (x : String) (h : (only_digits x).length ≤ 9) :
    nit_base_sin_dv (nit_base_sin_dv x) = nit_base_sin_dv x := by
  have hall := nit_base_all x
  have hlen := nit_base_len_le x h
  generalize hy : nit_base_sin_dv x = y at hall hlen ⊢
  unfold nit_base_sin_dv
  dsimp only
  rw [only_digits_of_all hall]
  rw [if_neg (by omega)]

/-- C5 witness: idempotence at a concrete 9-digit input. -/
theorem C5_idempotence_witness :
    (only_digits "123456789").length ≤ 9
      ∧ nit_base_sin_dv (nit_base_sin_dv "123456789") = nit_base_sin_dv "123456789" :=
  ⟨by decide, C5_idempotence_amended "123456789" (by decide)⟩

/-- C6 counterexample: with an unparsable `matricula` ("abc") in the list,
the selection returns the first row in source order (key 5), not the
max-key row (key 7) that the claim's rule — unparsable read as 0 —
selects. -/
theorem C6_row_selection_cex :
    selectRow dataC6x = some [("matricula", "5")]
      ∧ specSelect dataC6x = some [("matricula", "7")] :=
  ⟨rfl, rfl⟩

/-- C6 (amended): when every row's `matricula` parses as an integer
(missing or empty read as 0), the selected row is the first row attaining
the maximal key — max value, ties broken by source order; an unparsable
value instead aborts the sort and the first row in source order is
returned. -/
theorem C6_row_selection_amended (data : List Row)
    (h : data.all (fun r => (keyOf r).isSome) = true) :
    selectRow data = specSelect data :=
  selectRow_eq_spec h

/-- C6 witness: the amended selection rule on rows with a duplicated
maximal key. -/
theorem C6_row_selection_witness :
    dataC6w.all (fun r => (keyOf r).isSome) = true
      ∧ selectRow dataC6w = specSelect dataC6w :=
  ⟨by decide, C6_row_selection_amended dataC6w (by decide)⟩

/-- C7 counterexample: an empty mapping under `registros` is not used
directly — the `and regs` truthiness test fails, so the whole document is
returned, while the claim's rules return the empty mapping. -/
theorem C7_unwrap_cex :
    unwrap_rues_registro docC7x = [("registros", Json.obj [])]
      ∧ unwrapSpecClaim docC7x = []
      ∧ unwrap_rues_registro docC7x ≠ unwrapSpecClaim docC7x := by
  refine ⟨rfl, rfl, ?_⟩
  intro hcontra
  rw [(rfl : unwrap_rues_registro docC7x = [("registros", Json.obj [])]),
    (rfl : unwrapSpecClaim docC7x = ([] : JDict))] at hcontra
  exact List.noConfusion hcontra

/-- C7 (amended): the unwrap applies the rules in order with first match
winning, where a mapping under `registros` is used directly only when it
is non-empty; the other rules are as claimed. -/
theorem C7_unwrap_amended (js : Json) :
    unwrap_rues_registro js = unwrapSpecAmended js :=
  unwrap_eq_amended js

/-- C8 counterexample: the padding is minimum-width, not fixed-width — a
3-digit chamber code yields a 13-character id, so the id is not always the
2+10 fixed-width concatenation. -/
theorem C8_build_id_cex :
    build_id_rm (PyVal.pyInt 123) (PyVal.pyInt 1) = some "1230000000001"
      ∧ ("1230000000001" : String).length ≠ 12 :=
  ⟨rfl, by decide⟩

/-- C8 (amended): `build(7, 123)` is "070000000123"; a non-integer-coercible
input gives null; an integer-coercible pair gives the concatenation of the
chamber code zero-padded to minimum width 2 and the sequence zero-padded to
minimum width 10, which is fixed-width exactly when each value fits its
width. -/
theorem C8_build_id_amended :
    build_id_rm (PyVal.pyInt 7) (PyVal.pyInt 123) = some "070000000123"
      ∧ (∀ c m : PyVal, pyIntCoerce c = none → build_id_rm c m = none)
      ∧ (∀ c m : PyVal, pyIntCoerce m = none → build_id_rm c m = none)
      ∧ (∀ (c m : PyVal) (a b : Int), pyIntCoerce c = some a → pyIntCoerce m = some b →
          build_id_rm c m = some (pyPad 2 a ++ pyPad 10 b))
      ∧ (∀ (w : Nat) (n : Int), 1 ≤ w → 0 ≤ n → n < (10 : Int) ^ w →
          (pyPad w n).length = w) := by
  refine ⟨rfl, ?_, ?_, ?_, pyPad_len⟩
  · intro c m hc
    unfold build_id_rm
    rw [hc]
  · intro c m hm
    unfold build_id_rm
    rw [hm]
    cases pyIntCoerce c <;> rfl
  · intro c m a b hc hm
    unfold build_id_rm
    rw [hc, hm]

/-- C8 witness: the amended statement's legs at concrete inputs. -/
theorem C8_build_id_witness :
    build_id_rm (PyVal.pyStr "x") (PyVal.pyInt 1) = none
      ∧ build_id_rm (PyVal.pyInt 1) (PyVal.pyStr "x") = none
      ∧ build_id_rm (PyVal.pyInt 7) (PyVal.pyInt 123) = some (pyPad 2 7 ++ pyPad 10 123)
      ∧ (pyPad 10 123).length = 10 :=
  ⟨C8_build_id_amended.2.1 (PyVal.pyStr "x") (PyVal.pyInt 1) rfl,
   C8_build_id_amended.2.2.1 (PyVal.pyInt 1) (PyVal.pyStr "x") rfl,
   C8_build_id_amended.2.2.2.1 (PyVal.pyInt 7) (PyVal.pyInt 123) 7 123 rfl rfl,
   C8_build_id_amended.2.2.2.2 10 123 (by decide) (by decide) (by norm_num)⟩

/-- C9: the structured document yields "4711" and the webhook's ciiu step
then short-circuits — whenever the structured extraction is truthy the
recursive scan is not consulted; the unstructured document yields "9999"
through the targeted key scan, which `find_first_ciiu_anywhere` always
tries before the last-resort whole-document scan. -/
theorem C9_ciiu_fallback :
    extrasCiiu docC9a = some "4711"
      ∧ webhookCiiuStep docC9a = some "4711"
      ∧ (∀ d : JDict, truthyStr (pyOrStr (extract_rues_extras d).ciiu none) = true →
          webhookCiiuStep d = pyOrStr (extract_rues_extras d).ciiu none)
      ∧ extrasCiiu docC9b = none
      ∧ findCiiuByKeys docC9b = some "9999"
      ∧ webhookCiiuStep docC9b = some "9999"
      ∧ (∀ (d : JDict) (c : String), findCiiuByKeys d = some c →
          find_first_ciiu_anywhere d = some c) := by
  refine ⟨rfl, rfl, ?_, rfl, rfl, rfl, ?_⟩
  · intro d hd
    unfold webhookCiiuStep
    dsimp only
    rw [if_pos hd]
  · intro d c hc
    unfold find_first_ciiu_anywhere
    rw [hc]

/-- C9 witness: the two ordering legs at the concrete documents. -/
theorem C9_ciiu_fallback_witness :
    webhookCiiuStep docC9a = pyOrStr (extract_rues_extras docC9a).ciiu none
      ∧ find_first_ciiu_anywhere docC9b = some "9999" :=
  ⟨C9_ciiu_fallback.2.2.1 docC9a rfl,
   C9_ciiu_fallback.2.2.2.2.2.2 docC9b "9999" rfl⟩

/-- C10 counterexample: a whitespace-only `nit` (" ") is non-empty, but its
stripped value is not used — the extraction falls through to `vat` and
returns "123", while the claim's precedence returns the stripped nit, the
empty string. -/
theorem C10_nit_precedence_cex :
    extract_nit_from_payload (some " ") (PyVal.pyStr "123") = .ok (some "123")
      ∧ specExtractNitClaim (some " ") (PyVal.pyStr "123") = some "" :=
  ⟨rfl, rfl⟩

/-- C10 (amended): a `nit` string that strips to non-empty wins and is used
stripped; otherwise `vat` decides — finite numeric values become the
decimal string of their integer truncation, a non-finite float makes
`int()` raise an uncaught error out of the endpoint, a string is used
stripped when the strip is non-empty, and everything else (absent, False,
blank string, containers) yields null. -/
theorem C10_nit_precedence_amended (nit : Option String) (vat : PyVal) :
    extract_nit_from_payload nit vat = specExtractNit nit vat := by
  cases nit with
  | none => exact extractVat_eq_spec vat
  | some s =>
    unfold extract_nit_from_payload specExtractNit
    dsimp only
    by_cases hp : pyStrip s = ""
    · have h1 : ¬(s ≠ "" ∧ pyStrip s ≠ "") := fun hand => hand.2 hp
      have h2 : ¬(pyStrip s ≠ "") := fun hn => hn hp
      rw [if_neg h1, if_neg h2]
      exact extractVat_eq_spec vat
    · have hs : s ≠ "" := fun he => hp (by subst he; rfl)
      rw [if_pos (And.intro hs hp), if_pos hp]

end Rues
